import Mathlib

/-!
# EmbeddedDataLogger: the telemetry pipeline of `main_blinky.c`

A shallow embedding of the sensor simulator, its pseudo-random source, the six tasks
and their wiring in `FreeRTOS/Demo/CORTEX_MPS2_QEMU_IAR_GCC/main_blinky.c`,
followed by the properties proved about them.

Conventions of the embedding.

* `uint32_t` values are natural numbers reduced modulo `2^32`; the unary minus of
  the source is the modular negation `neg_u32`.
* `int` is the 32-bit signed integer of the Cortex-M target.  Values are
  mathematical integers and every arithmetic result is wrapped into
  `[-2^31, 2^31)` by `wrapInt32`, so a theorem that needs the exact result says
  through its hypotheses that the operands stay in range.  Division and remainder
  truncate toward zero (`Int.tdiv`, `Int.tmod`) as in C.
* A static variable or a task-local variable that lives across loop iterations
  becomes an explicit state argument and result.
* A blocking `xQueueSend` is recorded as the list of items the iteration sends.
* The whole program is a state `SystemState` and a step function over actions: an
  action is the run of one task from the point where it resumes to its next
  suspension.  The queues of the kernel are modelled from the specification, and
  the time at which the scheduler picks an action is not modelled: a schedule is
  any list of actions.
* Texts are lists of bytes; `printf` lines are kept as the arguments printed.
-/

namespace DataLogger

/-! ## Machine arithmetic -/

/-- Two's-complement wrap of an integer into the range of a 32-bit `int`. -/
def wrapInt32 (x : Int) : Int := (x + 2 ^ 31) % 2 ^ 32 - 2 ^ 31

/-- Range of a 32-bit `int`. -/
def InInt32 (x : Int) : Prop := -2 ^ 31 ≤ x ∧ x < 2 ^ 31

instance (x : Int) : Decidable (InInt32 x) := by
  unfold InInt32; infer_instance

/-- Addition of two `int` operands. -/
def add_i32 (a b : Int) : Int := wrapInt32 (a + b)

/-- Subtraction of two `int` operands. -/
def sub_i32 (a b : Int) : Int := wrapInt32 (a - b)

/-- Multiplication of two `int` operands. -/
def mul_i32 (a b : Int) : Int := wrapInt32 (a * b)

/-- Division of two `int` operands, truncating toward zero. -/
def div_i32 (a b : Int) : Int := wrapInt32 (Int.tdiv a b)

/-- The library function `abs` on an `int`. -/
def abs_i32 (a : Int) : Int := wrapInt32 |a|

/-- Unary minus on a `uint32_t`. -/
def neg_u32 (x : Nat) : Nat := (2 ^ 32 - x % 2 ^ 32) % 2 ^ 32

/-! ## Pseudo-random source -/

/-- Initial value of the static variable `lfsr`. -/
def lfsrSeed : Nat := 0xACE1

/-- The function `simple_rand`: the argument is the value of the static `lfsr` before
the call; the result is the returned `uint16_t` and the value of `lfsr` after it. -/
def simple_rand (lfsr : Nat) : Nat × Nat :=
  let lfsr1 := ((lfsr >>> 1) ^^^ (neg_u32 (lfsr &&& 1) &&& 0xB400)) % 2 ^ 32
  ((lfsr1 &&& 0xFFFF) % 2 ^ 16, lfsr1)

/-- Value of `lfsr` after one call of `simple_rand`. -/
def lfsrNext (lfsr : Nat) : Nat := (simple_rand lfsr).2

/-- Value of `lfsr` after `n` calls of `simple_rand`, starting from the seed. -/
def lfsrAfter (n : Nat) : Nat := lfsrNext^[n] lfsrSeed

/-- Value returned by the `n`-th call of `simple_rand` (counted from 1) when all
calls start from the seed. -/
def drawAt (n : Nat) : Nat := (simple_rand (lfsrAfter (n - 1))).1

/-- The step of the pseudo-random source in the words of the specification:
shift right by one and XOR with `0xB400` when the low bit was set. -/
def specNext (state : Nat) : Nat :=
  (state >>> 1) ^^^ (if state % 2 = 1 then 0xB400 else 0)

/-- Walks `n + 1` states of the generator: the first `n` must be non-zero and
different from the seed, the last one must be the seed. -/
def periodCheck : Nat → Nat → Bool
  | 0, s => s == lfsrSeed
  | n + 1, s =>
    match s with
    | 0 => false
    | t + 1 => (t + 1 != lfsrSeed) && periodCheck n (lfsrNext (t + 1))

/-! ## Sensor simulator -/

/-- The record `SensorData_t`. -/
structure SensorData_t where
  temp : Int
  humidity : Int
  light : Int
  tick : Nat
  deriving DecidableEq, Repr

/-- The function `readSensor`: three calls of `simple_rand` in statement order. -/
def readSensor (tick : Nat) (lfsr : Nat) : SensorData_t × Nat :=
  let r1 := simple_rand lfsr
  let r2 := simple_rand r1.2
  let r3 := simple_rand r2.2
  ({ temp := add_i32 150 (Int.tmod (r1.1 : Int) 200)
     humidity := add_i32 3000 (Int.tmod (r2.1 : Int) 4000)
     light := add_i32 300 (Int.tmod (r3.1 : Int) 500)
     tick := tick }, r3.2)

/-! ## Statistics task -/

/-- The record `AlertData_t`.  Its 64-byte text is formatted by `snprintf` from the
previous and the current temperature; the embedding keeps these two arguments. -/
structure AlertData_t where
  fromTemp : Int
  toTemp : Int
  deriving DecidableEq, Repr

/-- Local variables of `DataProcessorTask` that live across loop iterations. -/
structure ProcessorState where
  avgTemp : Int
  avgHum : Int
  samples : Int
  prevTemp : Int
  deriving DecidableEq, Repr

/-- Values of the locals of `DataProcessorTask` when its loop is entered. -/
def ProcessorState.init : ProcessorState :=
  { avgTemp := 0, avgHum := 0, samples := 0, prevTemp := -1 }

/-- The expression `(avg * samples + x) / (samples + 1)` of `DataProcessorTask`,
used for both running means. -/
def meanUpdate (avg samples x : Int) : Int :=
  div_i32 (add_i32 (mul_i32 avg samples) x) (add_i32 samples 1)

/-- One iteration of the loop of `DataProcessorTask` for a received sample: the new
locals and the alerts sent to the alert queue during the iteration. -/
def DataProcessorTask_step (st : ProcessorState) (data : SensorData_t) :
    ProcessorState × List AlertData_t :=
  let avgTemp := meanUpdate st.avgTemp st.samples data.temp
  let avgHum := meanUpdate st.avgHum st.samples data.humidity
  let samples := add_i32 st.samples 1
  let alerts : List AlertData_t :=
    if 0 ≤ st.prevTemp ∧ 50 < abs_i32 (sub_i32 data.temp st.prevTemp) then
      [{ fromTemp := st.prevTemp, toTemp := data.temp }]
    else []
  ({ avgTemp := avgTemp, avgHum := avgHum, samples := samples, prevTemp := data.temp },
    alerts)

/-- Locals of `DataProcessorTask` after it has received the samples `ds` in order. -/
def processAll (st : ProcessorState) (ds : List SensorData_t) : ProcessorState :=
  ds.foldl (fun s d => (DataProcessorTask_step s d).1) st

/-- Running mean and count after feeding the values `xs` one at a time to
`meanUpdate`, starting from mean 0 and count 0. -/
def runningMean (xs : List Int) : Int × Int :=
  xs.foldl (fun mc x => (meanUpdate mc.1 mc.2 x, add_i32 mc.2 1)) (0, 0)

/-- All alerts sent to the alert queue while `DataProcessorTask` receives the samples
`ds` in order, starting with the locals `st`. -/
def processAlerts : ProcessorState → List SensorData_t → List AlertData_t
  | _, [] => []
  | st, d :: ds =>
    (DataProcessorTask_step st d).2 ++ processAlerts (DataProcessorTask_step st d).1 ds

/-- Reference computation of the end-to-end scenario: the number of adjacent pairs of
temperatures whose absolute difference exceeds 50 tenths of a degree. -/
def adjacentJumps : List Int → Nat
  | a :: b :: rest => (if 50 < |b - a| then 1 else 0) + adjacentJumps (b :: rest)
  | _ => 0

/-! ## Text stored by `snprintf` -/

/-- Bytes of a text of the source (UTF-8, without the terminating zero). -/
def cbytes (s : String) : List UInt8 := s.data.flatMap String.utf8EncodeChar

/-- What `snprintf (buf, size, ...)` leaves in `buf` in front of the terminating zero
when the formatted text is `text`: its first `size - 1` bytes. -/
def snprintf (size : Nat) (text : List UInt8) : List UInt8 := text.take (size - 1)

/-- The conversion `%5.1f` of a value that shows as `tenths / 10` with one decimal:
sign, integer digits, point, one digit, padded on the left with blanks to five
characters. -/
def fmt_5_1f (tenths : Int) : String :=
  let body := (if tenths < 0 then "-" else "") ++ toString (tenths.natAbs / 10) ++ "." ++
    toString (tenths.natAbs % 10)
  String.mk (List.replicate (5 - body.length) ' ') ++ body

/-- The text formatted for the alert in `DataProcessorTask`.  The two arguments of the
conversions are the float quotients `prevTemp / 10.0f` and `data.temp / 10.0f`; for the
temperatures of the simulator the quotient is within 10^-5 of a multiple of 0.1, so the
one-decimal rendering shows exactly `prevTemp` and `temp` tenths. -/
def alertText (prevTemp temp : Int) : String :=
  "\x1B[31mRapid temp change: " ++ fmt_5_1f prevTemp ++ "°C -> " ++ fmt_5_1f temp ++
    "°C\x1B[0m"

/-- The field `message` (64 bytes) of an alert, in front of its terminating zero. -/
def AlertData_t.message (a : AlertData_t) : List UInt8 :=
  snprintf 64 (cbytes (alertText a.fromTemp a.toTemp))

/-! ## Command task -/

/-- The record `CommandData_t`: the bytes of `command` (32 bytes) in front of the
terminating zero, and `cmd_id`. -/
structure CommandData_t where
  command : List UInt8
  cmd_id : Nat
  deriving DecidableEq, Repr

/-- The array `commands` of `CommandHandlerTask`. -/
def commands : List String := ["STATUS", "READ_SENSORS", "CALIBRATE"]

/-- The six tasks created by `main_blinky`, named by their entry functions. -/
inductive TaskId
  | SensorReaderTask
  | DataProcessorTask
  | SystemMonitorTask
  | CommandHandlerTask
  | DataLoggerTask
  | AlertTask
  deriving DecidableEq, Repr

/-- A line written to the console by `printf`, kept as the arguments of the call. -/
inductive LogLine
  | sensor (tick : Nat) (temp humidity light : Int)
  | process (avgTemp avgHum samples : Int)
  | alert (a : AlertData_t)
  | monitor (tick : Nat) (heap errors : Int)
  | command (tick : Nat) (command : List UInt8) (cmd_id : Nat)
  deriving DecidableEq, Repr

/-- One iteration of the loop of `CommandHandlerTask`: `now` is the value returned by
`xTaskGetTickCount`, `cmd_id` the 32-bit loop counter.  The result is the command
built, the line printed and the counter after `cmd_id++`. -/
def CommandHandlerTask_step (now cmd_id : Nat) : CommandData_t × LogLine × Nat :=
  let cmd : CommandData_t :=
    { command := snprintf 32 (cbytes (commands.getD (cmd_id % 3) ""))
      cmd_id := cmd_id }
  (cmd, LogLine.command now cmd.command cmd.cmd_id, (cmd_id + 1) % 2 ^ 32)

/-- Value of the loop counter `cmd_id` when the `k`-th command (counted from 0) is
dispatched. -/
def cmdIdAt (k : Nat) : Nat := (fun c => (CommandHandlerTask_step 0 c).2.2)^[k] 0

/-- The `k`-th command (counted from 0) dispatched by `CommandHandlerTask`. -/
def commandAt (k : Nat) : CommandData_t := (CommandHandlerTask_step 0 (cmdIdAt k)).1

/-! ## Monitor task -/

/-- One iteration of the loop of `SystemMonitorTask`: two calls of `simple_rand` as
arguments of one `printf`.  C leaves the order of the two calls open; `heapFirst`
says whether the call of the heap argument comes first. -/
def SystemMonitorTask_step (heapFirst : Bool) (now lfsr : Nat) : LogLine × Nat :=
  let r1 := simple_rand lfsr
  let r2 := simple_rand r1.2
  let heapDraw := if heapFirst then r1.1 else r2.1
  let errDraw := if heapFirst then r2.1 else r1.1
  (LogLine.monitor now (add_i32 70 (Int.tmod (heapDraw : Int) 10)) (Int.tmod (errDraw : Int) 5),
    r2.2)

/-! ## Sensor task -/

/-- The first `n` samples of `SensorReaderTask` when nothing else calls `simple_rand`
in between: `tick` and `lfsr` are the values at the first of these iterations and
`w` is the width in bits of `TickType_t`, which the source takes from the kernel
configuration. -/
def sensorStream (w : Nat) : Nat → Nat → Nat → List SensorData_t
  | 0, _, _ => []
  | n + 1, tick, lfsr =>
    (readSensor tick lfsr).1 ::
      sensorStream w n ((tick + 1) % 2 ^ w) (readSensor tick lfsr).2

/-! ## Queues, tasks and their wiring -/

/-- Modelled from the spec: the bounded FIFO queue of the kernel, whose code is not part
of the sources read here.  It has a fixed capacity and keeps its items in the order
of the sends. -/
structure Queue (α : Type) where
  uxLength : Nat
  items : List α
  deriving DecidableEq, Repr

/-- Modelled from the spec: `xQueueCreateStatic` gives an empty queue of the given
capacity. -/
def xQueueCreateStatic {α : Type} (uxQueueLength : Nat) : Queue α :=
  { uxLength := uxQueueLength, items := [] }

/-- Modelled from the spec: `xQueueSend` with `portMAX_DELAY` appends the item when
there is room; `none` means that the caller stays suspended. -/
def xQueueSend {α : Type} (q : Queue α) (item : α) : Option (Queue α) :=
  if q.items.length < q.uxLength then some { q with items := q.items ++ [item] } else none

/-- Modelled from the spec: `xQueueReceive` with `portMAX_DELAY` removes the oldest item
and hands it to the one caller; `none` means that the caller stays suspended. -/
def xQueueReceive {α : Type} (q : Queue α) : Option (α × Queue α) :=
  match q.items with
  | [] => none
  | x :: rest => some (x, { q with items := rest })

/-- Queue length `SENSOR_QUEUE_LENGTH`. -/
def SENSOR_QUEUE_LENGTH : Nat := 10

/-- Queue length `ALERT_QUEUE_LENGTH`. -/
def ALERT_QUEUE_LENGTH : Nat := 5

/-- Queue length `COMMAND_QUEUE_LENGTH`. -/
def COMMAND_QUEUE_LENGTH : Nat := 5

/-- Priority of each task as passed to `xTaskCreateStatic` in `main_blinky`, through the
macros `SENSOR_TASK_PRIO` ... `ALERT_TASK_PRIO`.  The kernel constant
`tskIDLE_PRIORITY` is a parameter. -/
def taskPriority (tskIDLE_PRIORITY : Nat) : TaskId → Nat
  | .SensorReaderTask => tskIDLE_PRIORITY + 3
  | .DataProcessorTask => tskIDLE_PRIORITY + 2
  | .SystemMonitorTask => tskIDLE_PRIORITY + 2
  | .CommandHandlerTask => tskIDLE_PRIORITY + 2
  | .DataLoggerTask => tskIDLE_PRIORITY + 1
  | .AlertTask => tskIDLE_PRIORITY + 1

/-- The tasks in the order in which `main_blinky` creates them. -/
def createdTasks : List TaskId :=
  [.SensorReaderTask, .DataProcessorTask, .SystemMonitorTask, .CommandHandlerTask,
    .DataLoggerTask, .AlertTask]

/-- The variables of the program: the static `lfsr`, the three queues and the locals
of the tasks that live across iterations.  `sensorData` holds the sample of a
`SensorReaderTask` suspended in `xQueueSend`; `processorAlert` holds the alert and
the sample of a `DataProcessorTask` suspended in `xQueueSend`. -/
structure SystemState where
  lfsr : Nat
  xSensorQueue : Queue SensorData_t
  xAlertQueue : Queue AlertData_t
  xCommandQueue : Queue CommandData_t
  sensorTick : Nat
  sensorData : Option SensorData_t
  processor : ProcessorState
  processorAlert : Option (AlertData_t × SensorData_t)
  cmd_id : Nat
  deriving DecidableEq, Repr

/-- The state in which `main_blinky` starts the scheduler: empty queues of the three
lengths, every task at the head of its loop. -/
def main_blinky : SystemState :=
  { lfsr := lfsrSeed
    xSensorQueue := xQueueCreateStatic SENSOR_QUEUE_LENGTH
    xAlertQueue := xQueueCreateStatic ALERT_QUEUE_LENGTH
    xCommandQueue := xQueueCreateStatic COMMAND_QUEUE_LENGTH
    sensorTick := 1
    sensorData := none
    processor := ProcessorState.init
    processorAlert := none
    cmd_id := 0 }

/-- A run of one task from the point where it resumes up to its next suspension (a
queue operation that has to wait, or `vTaskDelay`).  The monitor and the command
task carry the value of `xTaskGetTickCount`. -/
inductive Action
  | SensorReaderTask
  | DataProcessorTask
  | SystemMonitorTask (now : Nat) (heapFirst : Bool)
  | CommandHandlerTask (now : Nat)
  | DataLoggerTask
  | AlertTask
  deriving DecidableEq, Repr

/-- The task that performs an action. -/
def Action.task : Action → TaskId
  | .SensorReaderTask => .SensorReaderTask
  | .DataProcessorTask => .DataProcessorTask
  | .SystemMonitorTask _ _ => .SystemMonitorTask
  | .CommandHandlerTask _ => .CommandHandlerTask
  | .DataLoggerTask => .DataLoggerTask
  | .AlertTask => .AlertTask

/-- What an action does to the queues and to the console. -/
inductive Event
  | sensorSend (d : SensorData_t)
  | sensorReceive (task : TaskId) (d : SensorData_t)
  | alertSend (a : AlertData_t)
  | alertReceive (a : AlertData_t)
  | print (line : LogLine)
  deriving DecidableEq, Repr

/-- The action of `SensorReaderTask`: take the sample (the one it is suspended with,
or a new one from `readSensor`), send it, print it and count the tick; when the
queue is full the task is suspended with the sample. -/
def SensorReaderTask_action (w : Nat) (s : SystemState) : Option (SystemState × List Event) :=
  let r : SensorData_t × Nat :=
    match s.sensorData with
    | some d => (d, s.lfsr)
    | none => readSensor s.sensorTick s.lfsr
  match xQueueSend s.xSensorQueue r.1 with
  | some q =>
    some ({ s with lfsr := r.2, xSensorQueue := q, sensorData := none,
                   sensorTick := (s.sensorTick + 1) % 2 ^ w },
      [Event.sensorSend r.1, Event.print (LogLine.sensor r.1.tick r.1.temp r.1.humidity r.1.light)])
  | none =>
    match s.sensorData with
    | some _ => none
    | none => some ({ s with lfsr := r.2, sensorData := some r.1 }, [])

/-- The action of `DataProcessorTask`: finish a suspended send of an alert, or receive
a sample, update the means, print them and send the alert if there is one. -/
def DataProcessorTask_action (s : SystemState) : Option (SystemState × List Event) :=
  match s.processorAlert with
  | some (a, d) =>
    match xQueueSend s.xAlertQueue a with
    | some qa =>
      some ({ s with xAlertQueue := qa, processorAlert := none,
                     processor := { s.processor with prevTemp := d.temp } },
        [Event.alertSend a])
    | none => none
  | none =>
    match xQueueReceive s.xSensorQueue with
    | none => none
    | some (d, q) =>
      let r := DataProcessorTask_step s.processor d
      let evs : List Event :=
        [Event.sensorReceive TaskId.DataProcessorTask d,
          Event.print (LogLine.process r.1.avgTemp r.1.avgHum r.1.samples)]
      match r.2 with
      | [] => some ({ s with xSensorQueue := q, processor := r.1 }, evs)
      | a :: _ =>
        match xQueueSend s.xAlertQueue a with
        | some qa =>
          some ({ s with xSensorQueue := q, xAlertQueue := qa, processor := r.1 },
            evs ++ [Event.alertSend a])
        | none =>
          some ({ s with xSensorQueue := q,
                         processor := { r.1 with prevTemp := s.processor.prevTemp },
                         processorAlert := some (a, d) }, evs)

/-- The action of `AlertTask`: receive an alert and print it. -/
def AlertTask_action (s : SystemState) : Option (SystemState × List Event) :=
  match xQueueReceive s.xAlertQueue with
  | none => none
  | some (a, q) =>
    some ({ s with xAlertQueue := q }, [Event.alertReceive a, Event.print (LogLine.alert a)])

/-- The action of `DataLoggerTask`: receive a sample and do nothing with it. -/
def DataLoggerTask_action (s : SystemState) : Option (SystemState × List Event) :=
  match xQueueReceive s.xSensorQueue with
  | none => none
  | some (d, q) =>
    some ({ s with xSensorQueue := q }, [Event.sensorReceive TaskId.DataLoggerTask d])

/-- One action of one task; `none` when the task stays suspended in its queue
operation. -/
def SystemState.step (w : Nat) (s : SystemState) : Action → Option (SystemState × List Event)
  | .SensorReaderTask => SensorReaderTask_action w s
  | .DataProcessorTask => DataProcessorTask_action s
  | .SystemMonitorTask now heapFirst =>
    some ({ s with lfsr := (SystemMonitorTask_step heapFirst now s.lfsr).2 },
      [Event.print (SystemMonitorTask_step heapFirst now s.lfsr).1])
  | .CommandHandlerTask now =>
    some ({ s with cmd_id := (CommandHandlerTask_step now s.cmd_id).2.2 },
      [Event.print (CommandHandlerTask_step now s.cmd_id).2.1])
  | .DataLoggerTask => DataLoggerTask_action s
  | .AlertTask => AlertTask_action s

/-- An action chosen by the scheduler: a task that stays suspended changes nothing. -/
def SystemState.exec (w : Nat) (s : SystemState) (a : Action) : SystemState × List Event :=
  (s.step w a).getD (s, [])

/-- The state and the events after a schedule, a list of actions in the order chosen
by the scheduler. -/
def SystemState.run (w : Nat) : SystemState → List Action → SystemState × List Event
  | s, [] => (s, [])
  | s, a :: rest =>
    ((SystemState.run w (s.exec w a).1 rest).1,
      (s.exec w a).2 ++ (SystemState.run w (s.exec w a).1 rest).2)

/-- The samples sent to the sensor queue, in order. -/
def sentSamples (evs : List Event) : List SensorData_t :=
  evs.filterMap fun e => match e with
    | Event.sensorSend d => some d
    | _ => none

/-- The samples received from the sensor queue, in order, each with the task that
received it. -/
def receivedSamples (evs : List Event) : List (TaskId × SensorData_t) :=
  evs.filterMap fun e => match e with
    | Event.sensorReceive t d => some (t, d)
    | _ => none

/-- The alerts sent to the alert queue, in order. -/
def sentAlerts (evs : List Event) : List AlertData_t :=
  evs.filterMap fun e => match e with
    | Event.alertSend a => some a
    | _ => none

/-- The lines printed, in order. -/
def printed (evs : List Event) : List LogLine :=
  evs.filterMap fun e => match e with
    | Event.print l => some l
    | _ => none

/-- The queue operations among the events: everything that is not a printed line. -/
def queueOps (evs : List Event) : List Event :=
  evs.filter fun e => match e with
    | Event.print _ => false
    | _ => true

/-- The round-robin order of the specification: the command that follows a command in
STATUS, READ_SENSORS, CALIBRATE, STATUS, ... -/
def cyclicSuccessor (command : List UInt8) : List UInt8 :=
  if command = cbytes "STATUS" then cbytes "READ_SENSORS"
  else if command = cbytes "READ_SENSORS" then cbytes "CALIBRATE"
  else cbytes "STATUS"

/-- The samples that `SensorReaderTask` is going to send from the state `s` when no
other task calls `simple_rand`: the sample it is suspended with, if any, followed by
`n` new ones. -/
def sensorFuture (w n : Nat) (s : SystemState) : List SensorData_t :=
  match s.sensorData with
  | some d => d :: sensorStream w n ((s.sensorTick + 1) % 2 ^ w) s.lfsr
  | none => sensorStream w n s.sensorTick s.lfsr

/-- The alerts received from the alert queue, in order. -/
def receivedAlerts (evs : List Event) : List AlertData_t :=
  evs.filterMap fun e => match e with
    | Event.alertReceive a => some a
    | _ => none

/-- Sends the items one after the other to a queue with no receiver in between;
`none` when one of the sends has to wait. -/
def sendMany {α : Type} : Queue α → List α → Option (Queue α)
  | q, [] => some q
  | q, x :: rest => (xQueueSend q x).bind fun q1 => sendMany q1 rest

/-- The step of the pseudo-random source as a map of the 16-bit states. -/
def lfsrNext16 (s : Fin (2 ^ 16)) : Fin (2 ^ 16) :=
  ⟨lfsrNext s.val % 2 ^ 16, Nat.mod_lt _ (by norm_num)⟩


/-- The samples that `DataProcessorTask` received from the sensor queue, in order. -/
def processorReceived (evs : List Event) : List SensorData_t :=
  evs.filterMap fun e => match e with
    | Event.sensorReceive TaskId.DataProcessorTask d => some d
    | _ => none

/-- The alert that `DataProcessorTask` is suspended with in `xQueueSend`, if any. -/
def heldAlert (s : SystemState) : List AlertData_t :=
  match s.processorAlert with
  | some (a, _) => [a]
  | none => []

/-- The locals of `DataProcessorTask` at the end of the iteration it is in: while the
task is suspended in the send of an alert, the assignment `prevTemp = data.temp` that
follows the send is still to come. -/
def processorLocals (s : SystemState) : ProcessorState :=
  match s.processorAlert with
  | some (_, d) => { s.processor with prevTemp := d.temp }
  | none => s.processor


/-- A schedule in which `SensorReaderTask` and `DataProcessorTask` take turns `n` times
while `AlertTask` does not run: the alerts stay in the alert queue. -/
def statsSchedule : Nat → List Action
  | 0 => []
  | n + 1 => Action.SensorReaderTask :: Action.DataProcessorTask :: statsSchedule n

/-! ## Machine arithmetic: basic facts -/

theorem wrapInt32_eq_self {x : Int} (h : InInt32 x) : wrapInt32 x = x := by
  unfold InInt32 at h
  unfold wrapInt32
  omega

theorem neg_u32_zero : neg_u32 0 = 0 := by decide

theorem neg_u32_one_and : neg_u32 1 &&& 0xB400 = 0xB400 := by decide

/-! ## Pseudo-random source: the step -/

theorem and_ffff_eq_mod (x : Nat) : x &&& 0xFFFF = x % 2 ^ 16 := by
  have h := Nat.and_pow_two_sub_one_eq_mod x 16
  norm_num at h
  simpa using h

theorem specNext_lt_of_lt {k : Nat} (hk : 16 ≤ k) {s : Nat} (h : s < 2 ^ k) :
    specNext s < 2 ^ k := by
  unfold specNext
  apply Nat.xor_lt_two_pow
  · rw [Nat.shiftRight_eq_div_pow]
    exact lt_of_le_of_lt (Nat.div_le_self _ _) h
  · have h16 : (2 : Nat) ^ 16 ≤ 2 ^ k := Nat.pow_le_pow_right (by norm_num) hk
    split <;> omega

theorem lfsrNext_eq_specNext {s : Nat} (h : s < 2 ^ 32) : lfsrNext s = specNext s := by
  have hlt : specNext s < 2 ^ 32 := specNext_lt_of_lt (by norm_num) h
  have hmask : neg_u32 (s &&& 1) &&& 0xB400 = if s % 2 = 1 then 0xB400 else 0 := by
    rw [Nat.and_one_is_mod]
    rcases Nat.mod_two_eq_zero_or_one s with h0 | h1
    · rw [h0, neg_u32_zero]; simp
    · rw [h1, neg_u32_one_and]; simp
  unfold lfsrNext simple_rand
  simp only [hmask]
  exact Nat.mod_eq_of_lt hlt

theorem simple_rand_fst (s : Nat) : (simple_rand s).1 = lfsrNext s % 2 ^ 16 := by
  unfold lfsrNext simple_rand
  simp only [and_ffff_eq_mod, Nat.mod_mod]

theorem lfsrNext_lt {s : Nat} (h : s < 2 ^ 16) : lfsrNext s < 2 ^ 16 := by
  rw [lfsrNext_eq_specNext (lt_trans h (by norm_num))]
  exact specNext_lt_of_lt (le_refl 16) h

theorem lfsrNext_ne_zero {s : Nat} (h : s < 2 ^ 16) (h0 : s ≠ 0) : lfsrNext s ≠ 0 := by
  rw [lfsrNext_eq_specNext (lt_trans h (by norm_num))]
  unfold specNext
  rw [Nat.shiftRight_eq_div_pow]
  intro hz
  rw [Nat.xor_eq_zero] at hz
  split at hz <;> omega

theorem lfsrAfter_succ (n : Nat) : lfsrAfter (n + 1) = lfsrNext (lfsrAfter n) := by
  unfold lfsrAfter
  rw [Function.iterate_succ_apply']

theorem lfsrAfter_lt (n : Nat) : lfsrAfter n < 2 ^ 16 := by
  induction n with
  | zero => decide
  | succ n ih => rw [lfsrAfter_succ]; exact lfsrNext_lt ih

theorem lfsrAfter_ne_zero (n : Nat) : lfsrAfter n ≠ 0 := by
  induction n with
  | zero => decide
  | succ n ih => rw [lfsrAfter_succ]; exact lfsrNext_ne_zero (lfsrAfter_lt n) ih

theorem simple_rand_fst_of_lt {s : Nat} (h : s < 2 ^ 16) : (simple_rand s).1 = lfsrNext s := by
  rw [simple_rand_fst]
  exact Nat.mod_eq_of_lt (lfsrNext_lt h)

theorem simple_rand_fst_lt (s : Nat) : (simple_rand s).1 < 2 ^ 16 := by
  rw [simple_rand_fst]
  exact Nat.mod_lt _ (by norm_num)

theorem drawAt_succ (n : Nat) : drawAt (n + 1) = lfsrAfter (n + 1) := by
  unfold drawAt
  rw [Nat.add_sub_cancel, simple_rand_fst_of_lt (lfsrAfter_lt n), lfsrAfter_succ]

/-! ## Pseudo-random source: the period -/

theorem periodCheck_sound (n : Nat) : ∀ s : Nat, periodCheck n s = true →
    lfsrNext^[n] s = lfsrSeed ∧ ∀ k, k < n → lfsrNext^[k] s ≠ lfsrSeed ∧ lfsrNext^[k] s ≠ 0 := by
  induction n with
  | zero =>
    intro s h
    refine ⟨?_, fun k hk => absurd hk (Nat.not_lt_zero k)⟩
    simpa [periodCheck] using h
  | succ n ih =>
    intro s h
    cases s with
    | zero => simp [periodCheck] at h
    | succ t =>
      simp only [periodCheck, Bool.and_eq_true, bne_iff_ne, ne_eq] at h
      obtain ⟨hseed, hrest⟩ := h
      obtain ⟨hlast, hbefore⟩ := ih _ hrest
      refine ⟨by rw [Function.iterate_succ_apply]; exact hlast, ?_⟩
      intro k hk
      cases k with
      | zero => exact ⟨hseed, Nat.succ_ne_zero t⟩
      | succ j =>
        rw [Function.iterate_succ_apply]
        exact hbefore j (Nat.lt_of_succ_lt_succ hk)

theorem periodCheck_seed : periodCheck 65534 (lfsrNext lfsrSeed) = true := by
  decide!

theorem lfsrAfter_succ_eq_iterate (k : Nat) :
    lfsrAfter (k + 1) = lfsrNext^[k] (lfsrNext lfsrSeed) := by
  unfold lfsrAfter
  rw [Function.iterate_succ_apply]

/-! ## Sensor simulator: value ranges -/

theorem tmod_draw_range (r : Nat) {m : Int} (hm : 0 < m) :
    0 ≤ Int.tmod (r : Int) m ∧ Int.tmod (r : Int) m < m := by
  have h0 : (0 : Int) ≤ (r : Int) := Int.ofNat_nonneg r
  rw [Int.tmod_eq_emod h0 (le_of_lt hm)]
  exact ⟨Int.emod_nonneg _ (ne_of_gt hm), Int.emod_lt_of_pos _ hm⟩

theorem add_i32_tmod (c : Int) (r : Nat) {m : Int} (hm : 0 < m) (hc : 0 ≤ c)
    (hcm : c + m ≤ 2 ^ 31) :
    add_i32 c (Int.tmod (r : Int) m) = c + (r : Int) % m := by
  obtain ⟨h1, h2⟩ := tmod_draw_range r hm
  have h0 : (0 : Int) ≤ (r : Int) := Int.ofNat_nonneg r
  unfold add_i32
  rw [wrapInt32_eq_self (by unfold InInt32; constructor <;> omega),
    Int.tmod_eq_emod h0 (le_of_lt hm)]

/-! ## Claims about the pseudo-random source and the sensor simulator -/

/-- C4: for every value of the generator state (and every tick argument) the sample
returned by `readSensor` has temperature in [150,350), humidity in [3000,7000) and
light in [300,800). -/
theorem readSensor_ranges (tick lfsr : Nat) :
    150 ≤ (readSensor tick lfsr).1.temp ∧ (readSensor tick lfsr).1.temp < 350 ∧
    3000 ≤ (readSensor tick lfsr).1.humidity ∧ (readSensor tick lfsr).1.humidity < 7000 ∧
    300 ≤ (readSensor tick lfsr).1.light ∧ (readSensor tick lfsr).1.light < 800 := by
  simp only [readSensor]
  rw [add_i32_tmod 150 _ (by norm_num) (by norm_num) (by norm_num),
    add_i32_tmod 3000 _ (by norm_num) (by norm_num) (by norm_num),
    add_i32_tmod 300 _ (by norm_num) (by norm_num) (by norm_num)]
  omega

/-- C5: one call of `simple_rand` on a 16-bit state `s` stores
`(s >> 1) XOR (0xB400 if s is odd, else 0)` in `lfsr` and returns that same value;
the new state is again a 16-bit value. -/
theorem simple_rand_eq_specNext (s : Nat) (h : s < 2 ^ 16) :
    simple_rand s = (specNext s, specNext s) ∧ specNext s < 2 ^ 16 := by
  have h32 : s < 2 ^ 32 := lt_trans h (by norm_num)
  have hn : lfsrNext s = specNext s := lfsrNext_eq_specNext h32
  refine ⟨Prod.ext ?_ hn, specNext_lt_of_lt (le_refl 16) h⟩
  rw [simple_rand_fst_of_lt h, hn]

/-- Witness of C5 at the seed: the first call returns and stores 0xE270. -/
theorem simple_rand_eq_specNext_witness :
    (0xACE1 : Nat) < 2 ^ 16 ∧ simple_rand 0xACE1 = (0xE270, 0xE270) := by
  refine ⟨by norm_num, ?_⟩
  have h := (simple_rand_eq_specNext 0xACE1 (by norm_num)).1
  rw [h]
  decide

/-- C6: starting from the seed 0xACE1 the value of `lfsr` is non-zero after every
number of calls of `simple_rand`. -/
theorem lfsr_never_zero (n : Nat) : lfsrAfter n ≠ 0 ∧ lfsrAfter 0 = 0xACE1 :=
  ⟨lfsrAfter_ne_zero n, rfl⟩

/-- C7: from the seed 0xACE1 the state is back at 0xACE1 after 65535 calls and at no
smaller positive number of calls, and none of these 65535 calls returns zero. -/
theorem lfsr_period :
    lfsrAfter 65535 = lfsrSeed ∧
    (∀ k, 0 < k → k < 65535 → lfsrAfter k ≠ lfsrSeed) ∧
    (∀ k, 1 ≤ k → k ≤ 65535 → drawAt k ≠ 0) := by
  obtain ⟨hlast, hbefore⟩ := periodCheck_sound 65534 _ periodCheck_seed
  refine ⟨?_, ?_, ?_⟩
  · rw [lfsrAfter_succ_eq_iterate 65534]; exact hlast
  · intro k hk hlt
    obtain ⟨j, rfl⟩ := Nat.exists_eq_succ_of_ne_zero (Nat.pos_iff_ne_zero.mp hk)
    rw [lfsrAfter_succ_eq_iterate j]
    exact (hbefore j (by omega)).1
  · intro k hk _
    obtain ⟨j, rfl⟩ := Nat.exists_eq_succ_of_ne_zero (Nat.pos_iff_ne_zero.mp hk)
    rw [drawAt_succ]
    exact lfsrAfter_ne_zero (j + 1)

/-- Witness of C7 at the first call: the state after one call is not the seed and
the value returned is not zero. -/
theorem lfsr_period_witness : lfsrAfter 1 ≠ lfsrSeed ∧ drawAt 1 ≠ 0 :=
  ⟨lfsr_period.2.1 1 (by decide) (by decide), lfsr_period.2.2 1 (by decide) (by decide)⟩

/-- C8: `readSensor t` from state `s` makes three calls of `simple_rand`, in the order
temperature, humidity, light; the fields are 150 + draw1 mod 200, 3000 + draw2 mod 4000
and 300 + draw3 mod 500 as exact integers, the tick field is `t`, and `lfsr` ends three
steps after `s`.  From the seed the draws are 0xE270, 0x7138, 0x389C and the sample
is 318, 3984, 792. -/
theorem readSensor_three_draws (t s : Nat) :
    (readSensor t s).1.temp = 150 + ((simple_rand s).1 : Int) % 200 ∧
    (readSensor t s).1.humidity = 3000 + ((simple_rand (lfsrNext s)).1 : Int) % 4000 ∧
    (readSensor t s).1.light = 300 + ((simple_rand (lfsrNext (lfsrNext s))).1 : Int) % 500 ∧
    (readSensor t s).1.tick = t ∧
    (readSensor t s).2 = lfsrNext^[3] s ∧
    (simple_rand lfsrSeed).1 = 0xE270 ∧
    (simple_rand (lfsrNext lfsrSeed)).1 = 0x7138 ∧
    (simple_rand (lfsrNext (lfsrNext lfsrSeed))).1 = 0x389C ∧
    (readSensor t lfsrSeed).1 = { temp := 318, humidity := 3984, light := 792, tick := t } := by
  refine ⟨?_, ?_, ?_, rfl, rfl, by decide, by decide, by decide, ?_⟩
  · simp only [readSensor]
    exact add_i32_tmod 150 _ (by norm_num) (by norm_num) (by norm_num)
  · simp only [readSensor, lfsrNext]
    exact add_i32_tmod 3000 _ (by norm_num) (by norm_num) (by norm_num)
  · simp only [readSensor, lfsrNext]
    exact add_i32_tmod 300 _ (by norm_num) (by norm_num) (by norm_num)
  · have h1 : (simple_rand lfsrSeed).1 = 0xE270 := by decide
    have h2 : (simple_rand (simple_rand lfsrSeed).2).1 = 0x7138 := by decide
    have h3 : (simple_rand (simple_rand (simple_rand lfsrSeed).2).2).1 = 0x389C := by decide
    have e1 : add_i32 150 (Int.tmod ((0xE270 : Nat) : Int) 200) = 318 := by decide
    have e2 : add_i32 3000 (Int.tmod ((0x7138 : Nat) : Int) 4000) = 3984 := by decide
    have e3 : add_i32 300 (Int.tmod ((0x389C : Nat) : Int) 500) = 792 := by decide
    simp only [readSensor, h1, h2, h3, e1, e2, e3]

/-! ## Statistics task: the anomaly rule -/

theorem step_prevTemp (st : ProcessorState) (d : SensorData_t) :
    (DataProcessorTask_step st d).1.prevTemp = d.temp := rfl

theorem step_alerts (st : ProcessorState) (d : SensorData_t) :
    (DataProcessorTask_step st d).2 =
      if 0 ≤ st.prevTemp ∧ 50 < abs_i32 (sub_i32 d.temp st.prevTemp) then
        [{ fromTemp := st.prevTemp, toTemp := d.temp }]
      else [] := rfl

theorem abs_sub_i32 {a b : Int}
    (hlo : -2 ^ 31 < a - b) (hhi : a - b < 2 ^ 31) : abs_i32 (sub_i32 a b) = |a - b| := by
  have hs : wrapInt32 (a - b) = a - b := wrapInt32_eq_self (by unfold InInt32; omega)
  unfold abs_i32 sub_i32
  rw [hs]
  apply wrapInt32_eq_self
  unfold InInt32
  rcases abs_cases (a - b) with ⟨h, _⟩ | ⟨h, _⟩ <;> rw [h] <;> omega

/-- C1: when the previous and the current temperature are non-negative `int` values, the
iteration for the current sample sends exactly one alert (from the previous to the
current temperature) if their absolute difference exceeds 50 and sends none
otherwise. -/
theorem alert_rule_nonneg (st : ProcessorState) (d1 d2 : SensorData_t)
    (h1 : 0 ≤ d1.temp) (h1u : d1.temp < 2 ^ 31) (h2 : 0 ≤ d2.temp) (h2u : d2.temp < 2 ^ 31) :
    (50 < |d2.temp - d1.temp| →
      (DataProcessorTask_step (DataProcessorTask_step st d1).1 d2).2 =
        [{ fromTemp := d1.temp, toTemp := d2.temp }]) ∧
    (|d2.temp - d1.temp| ≤ 50 →
      (DataProcessorTask_step (DataProcessorTask_step st d1).1 d2).2 = []) := by
  have habs : abs_i32 (sub_i32 d2.temp d1.temp) = |d2.temp - d1.temp| :=
    abs_sub_i32 (by omega) (by omega)
  rw [step_alerts, step_prevTemp, habs]
  constructor
  · intro h
    rw [if_pos ⟨h1, h⟩]
  · intro h
    rw [if_neg (fun hc => absurd hc.2 (not_lt.mpr h))]

/-- Witness of C1: from the initial locals, 200 then 260 sends exactly one alert and
200 then 240 sends none. -/
theorem alert_rule_nonneg_witness :
    (DataProcessorTask_step (DataProcessorTask_step ProcessorState.init
        { temp := 200, humidity := 5000, light := 500, tick := 1 }).1
        { temp := 260, humidity := 5000, light := 500, tick := 2 }).2 =
      [{ fromTemp := 200, toTemp := 260 }] ∧
    (DataProcessorTask_step (DataProcessorTask_step ProcessorState.init
        { temp := 200, humidity := 5000, light := 500, tick := 1 }).1
        { temp := 240, humidity := 5000, light := 500, tick := 2 }).2 = [] :=
  ⟨(alert_rule_nonneg ProcessorState.init
      { temp := 200, humidity := 5000, light := 500, tick := 1 }
      { temp := 260, humidity := 5000, light := 500, tick := 2 }
      (by decide) (by decide) (by decide) (by decide)).1 (by decide),
   (alert_rule_nonneg ProcessorState.init
      { temp := 200, humidity := 5000, light := 500, tick := 1 }
      { temp := 240, humidity := 5000, light := 500, tick := 2 }
      (by decide) (by decide) (by decide) (by decide)).2 (by decide)⟩

/-- C2: the iteration for the first sample sends no alert, whatever the sample is. -/
theorem first_sample_no_alert (d : SensorData_t) :
    (DataProcessorTask_step ProcessorState.init d).2 = [] := by
  rw [step_alerts]
  exact if_neg (fun hc => absurd hc.1 (by decide))

/-- C3, as stated, fails: after a sample of temperature -100 a sample of temperature 0
differs from it by 100 > 50, yet no alert is sent. -/
theorem alert_iff_abs_counterexample :
    50 < |(0 : Int) - (-100)| ∧
    (DataProcessorTask_step (DataProcessorTask_step ProcessorState.init
        { temp := -100, humidity := 5000, light := 500, tick := 1 }).1
        { temp := 0, humidity := 5000, light := 500, tick := 2 }).2 = [] := by
  decide

/-- C3, amended: for `int` temperatures `a` (previous) and `b` (current) with `a` negative
or `b - a` greater than -2^31, the iteration after a sample of temperature `a` sends
an alert for the sample of temperature `b` if and only if `a` is non-negative and
|b - a| > 50; in both cases the stored previous temperature becomes `b`. -/
theorem alert_iff_valid_prev (st : ProcessorState) (d1 d2 : SensorData_t)
    (h1 : InInt32 d1.temp) (h2 : InInt32 d2.temp)
    (hsub : d1.temp < 0 ∨ -2 ^ 31 < d2.temp - d1.temp) :
    ((DataProcessorTask_step (DataProcessorTask_step st d1).1 d2).2 ≠ [] ↔
      (0 ≤ d1.temp ∧ 50 < |d2.temp - d1.temp|)) ∧
    ((DataProcessorTask_step (DataProcessorTask_step st d1).1 d2).2 ≠ [] →
      (DataProcessorTask_step (DataProcessorTask_step st d1).1 d2).2 =
        [{ fromTemp := d1.temp, toTemp := d2.temp }]) ∧
    (DataProcessorTask_step (DataProcessorTask_step st d1).1 d2).1.prevTemp = d2.temp := by
  refine ⟨?_, ?_, rfl⟩
  · rw [step_alerts, step_prevTemp]
    by_cases hneg : d1.temp < 0
    · rw [if_neg (fun hc => absurd hc.1 (not_le.mpr hneg))]
      constructor
      · intro h; exact absurd rfl h
      · intro h; exact absurd h.1 (not_le.mpr hneg)
    · have hlo : -2 ^ 31 < d2.temp - d1.temp := hsub.resolve_left hneg
      have hhi : d2.temp - d1.temp < 2 ^ 31 := by
        unfold InInt32 at h1 h2; omega
      rw [abs_sub_i32 hlo hhi]
      by_cases hc : 0 ≤ d1.temp ∧ 50 < |d2.temp - d1.temp|
      · rw [if_pos hc]; simp [hc]
      · rw [if_neg hc]; simp [hc]
  · rw [step_alerts, step_prevTemp]
    split
    · intro _; rfl
    · intro h; exact absurd rfl h

/-- Witness of C3 (amended): after 200, the sample 260 raises an alert. -/
theorem alert_iff_valid_prev_witness :
    (DataProcessorTask_step (DataProcessorTask_step ProcessorState.init
        { temp := 200, humidity := 5000, light := 500, tick := 1 }).1
        { temp := 260, humidity := 5000, light := 500, tick := 2 }).2 ≠ [] :=
  (alert_iff_valid_prev ProcessorState.init
      { temp := 200, humidity := 5000, light := 500, tick := 1 }
      { temp := 260, humidity := 5000, light := 500, tick := 2 }
      (by decide) (by decide) (Or.inr (by decide))).1.mpr ⟨by decide, by decide⟩

/-! ## Statistics task: the running means -/

theorem tdiv_pos_spec (a : Int) {b : Int} (hb : 0 < b) :
    |a - b * Int.tdiv a b| < b ∧ b * |Int.tdiv a b| ≤ |a| ∧
    (0 ≤ a → 0 ≤ Int.tdiv a b) ∧ (a ≤ 0 → Int.tdiv a b ≤ 0) := by
  rcases le_or_lt 0 a with ha | ha
  · have hq : Int.tdiv a b = a / b := Int.tdiv_eq_ediv ha (le_of_lt hb)
    have h1 := Int.emod_add_ediv a b
    have h2 := Int.emod_nonneg a (ne_of_gt hb)
    have h3 := Int.emod_lt_of_pos a hb
    have hq0 : 0 ≤ a / b := Int.ediv_nonneg ha (le_of_lt hb)
    rw [hq, abs_of_nonneg hq0, abs_of_nonneg ha, abs_lt]
    refine ⟨⟨?_, ?_⟩, ?_, fun _ => hq0, fun h => ?_⟩
    · linarith
    · linarith
    · linarith
    · have h0 : a = 0 := le_antisymm h ha
      rw [h0]; simp
  · have hna : 0 ≤ -a := by linarith
    have hq : Int.tdiv a b = -((-a) / b) := by
      rw [← Int.tdiv_eq_ediv hna (le_of_lt hb), Int.neg_tdiv, neg_neg]
    have h1 := Int.emod_add_ediv (-a) b
    have h2 := Int.emod_nonneg (-a) (ne_of_gt hb)
    have h3 := Int.emod_lt_of_pos (-a) hb
    have hq0 : 0 ≤ (-a) / b := Int.ediv_nonneg hna (le_of_lt hb)
    rw [hq, abs_neg, abs_of_nonneg hq0, abs_of_neg ha, abs_lt, mul_neg]
    refine ⟨⟨?_, ?_⟩, ?_, fun h => ?_, fun _ => ?_⟩
    · linarith
    · linarith
    · linarith
    · exact absurd h (not_le.mpr ha)
    · linarith

theorem tdiv_inInt32 {a b : Int} (ha : InInt32 a) (hb : 0 < b) : InInt32 (Int.tdiv a b) := by
  obtain ⟨_, h2, hpos, hneg⟩ := tdiv_pos_spec a hb
  have hq : |Int.tdiv a b| ≤ b * |Int.tdiv a b| :=
    le_mul_of_one_le_left (abs_nonneg _) hb
  have hle : |Int.tdiv a b| ≤ |a| := le_trans hq h2
  unfold InInt32 at ha ⊢
  rcases le_or_lt 0 a with h0 | h0
  · have hq0 := hpos h0
    rw [abs_of_nonneg hq0, abs_of_nonneg h0] at hle
    omega
  · have hq0 := hneg (le_of_lt h0)
    rw [abs_of_nonpos hq0, abs_of_neg h0] at hle
    omega

theorem meanUpdate_exact {m n x : Int} (hn : 0 ≤ n) (hn1 : n + 1 < 2 ^ 31)
    (hp : InInt32 (m * n)) (hs : InInt32 (m * n + x)) :
    meanUpdate m n x = Int.tdiv (m * n + x) (n + 1) := by
  have hc : wrapInt32 (n + 1) = n + 1 := wrapInt32_eq_self (by unfold InInt32; omega)
  unfold meanUpdate div_i32 add_i32 mul_i32
  rw [wrapInt32_eq_self hp, wrapInt32_eq_self hs, hc]
  exact wrapInt32_eq_self (tdiv_inInt32 hs (by omega))

theorem step_samples (st : ProcessorState) (d : SensorData_t) :
    (DataProcessorTask_step st d).1.samples = add_i32 st.samples 1 := rfl

theorem processAll_append (st : ProcessorState) (ds : List SensorData_t) (d : SensorData_t) :
    processAll st (ds ++ [d]) = (DataProcessorTask_step (processAll st ds) d).1 := by
  unfold processAll
  rw [List.foldl_append]
  rfl

theorem processAll_samples (ds : List SensorData_t) :
    ∀ st : ProcessorState, 0 ≤ st.samples → st.samples + (ds.length : Int) < 2 ^ 31 →
      (processAll st ds).samples = st.samples + (ds.length : Int) := by
  induction ds with
  | nil => intro st _ _; simp [processAll]
  | cons d ds ih =>
    intro st h0 hlt
    rw [List.length_cons] at hlt
    push_cast at hlt
    have hw : add_i32 st.samples 1 = st.samples + 1 :=
      wrapInt32_eq_self (by unfold InInt32; omega)
    have hstep : (DataProcessorTask_step st d).1.samples = st.samples + 1 := by
      rw [step_samples, hw]
    have := ih (DataProcessorTask_step st d).1 (by rw [hstep]; omega) (by rw [hstep]; omega)
    show (processAll (DataProcessorTask_step st d).1 ds).samples = _
    rw [this, hstep, List.length_cons]
    push_cast
    ring

/-- C9, amended: let `n` samples have been processed from the initial locals (all zero
means and count), with `n + 1 < 2^31`.  Then the count held is `n`, and, when for each
of the two means `mean * n` and `mean * n + x` lie in the range [-2^31, 2^31) of the
32-bit `int`, the next sample replaces each mean by `(mean * n + x) / (n + 1)`
truncated toward zero and raises the count by exactly one. -/
theorem running_mean_step (ds : List SensorData_t) (d : SensorData_t)
    (hlen : (ds.length : Int) + 1 < 2 ^ 31)
    (hT : InInt32 ((processAll ProcessorState.init ds).avgTemp * (ds.length : Int)))
    (hTx : InInt32 ((processAll ProcessorState.init ds).avgTemp * (ds.length : Int) + d.temp))
    (hH : InInt32 ((processAll ProcessorState.init ds).avgHum * (ds.length : Int)))
    (hHx : InInt32
      ((processAll ProcessorState.init ds).avgHum * (ds.length : Int) + d.humidity)) :
    ProcessorState.init.avgTemp = 0 ∧ ProcessorState.init.avgHum = 0 ∧
    ProcessorState.init.samples = 0 ∧
    (processAll ProcessorState.init ds).samples = (ds.length : Int) ∧
    (DataProcessorTask_step (processAll ProcessorState.init ds) d).1.avgTemp =
      Int.tdiv ((processAll ProcessorState.init ds).avgTemp * (ds.length : Int) + d.temp)
        ((ds.length : Int) + 1) ∧
    (DataProcessorTask_step (processAll ProcessorState.init ds) d).1.avgHum =
      Int.tdiv ((processAll ProcessorState.init ds).avgHum * (ds.length : Int) + d.humidity)
        ((ds.length : Int) + 1) ∧
    (DataProcessorTask_step (processAll ProcessorState.init ds) d).1.samples =
      (processAll ProcessorState.init ds).samples + 1 := by
  have hcount : (processAll ProcessorState.init ds).samples = (ds.length : Int) := by
    have h := processAll_samples ds ProcessorState.init (le_refl _)
      (by show (0 : Int) + _ < _; omega)
    rw [h]
    show (0 : Int) + _ = _
    omega
  have hn : (0 : Int) ≤ (ds.length : Int) := Int.ofNat_nonneg _
  refine ⟨rfl, rfl, rfl, hcount, ?_, ?_, ?_⟩
  · show meanUpdate _ (processAll ProcessorState.init ds).samples _ = _
    rw [hcount]
    exact meanUpdate_exact hn hlen hT hTx
  · show meanUpdate _ (processAll ProcessorState.init ds).samples _ = _
    rw [hcount]
    exact meanUpdate_exact hn hlen hH hHx
  · rw [step_samples]
    exact wrapInt32_eq_self (by rw [hcount]; unfold InInt32; omega)

/-- Witness of C9: after one sample (200, 50.00 %), the sample (261, 50.03 %) gives the
means (200 + 261) / 2 = 230 and (5000 + 5003) / 2 = 5001 and the count 2. -/
theorem running_mean_step_witness :
    (DataProcessorTask_step (processAll ProcessorState.init
        [{ temp := 200, humidity := 5000, light := 500, tick := 1 }])
        { temp := 261, humidity := 5003, light := 500, tick := 2 }).1.avgTemp = 230 ∧
    (DataProcessorTask_step (processAll ProcessorState.init
        [{ temp := 200, humidity := 5000, light := 500, tick := 1 }])
        { temp := 261, humidity := 5003, light := 500, tick := 2 }).1.avgHum = 5001 ∧
    (DataProcessorTask_step (processAll ProcessorState.init
        [{ temp := 200, humidity := 5000, light := 500, tick := 1 }])
        { temp := 261, humidity := 5003, light := 500, tick := 2 }).1.samples = 2 := by
  have h := running_mean_step [{ temp := 200, humidity := 5000, light := 500, tick := 1 }]
    { temp := 261, humidity := 5003, light := 500, tick := 2 }
    (by decide) (by decide) (by decide) (by decide) (by decide)
  obtain ⟨_, _, _, hc, ht, hh, hs⟩ := h
  refine ⟨?_, ?_, ?_⟩
  · rw [ht]; decide
  · rw [hh]; decide
  · rw [hs, hc]; decide

/-! ## Statistics task: drift of the running mean -/

theorem runningMean_fold_inv (B : Int) (xs : List Int) :
    ∀ m n S : Int, 0 ≤ n → |m| ≤ B → 2 * |S - n * m| ≤ n * (n - 1) →
      (∀ x ∈ xs, |x| ≤ B) → B * (n + (xs.length : Int)) < 2 ^ 31 →
      n + (xs.length : Int) < 2 ^ 31 →
      (xs.foldl (fun mc x => (meanUpdate mc.1 mc.2 x, add_i32 mc.2 1)) (m, n)).2
          = n + (xs.length : Int) ∧
      |(xs.foldl (fun mc x => (meanUpdate mc.1 mc.2 x, add_i32 mc.2 1)) (m, n)).1| ≤ B ∧
      2 * |S + xs.sum - (n + (xs.length : Int)) *
          (xs.foldl (fun mc x => (meanUpdate mc.1 mc.2 x, add_i32 mc.2 1)) (m, n)).1|
        ≤ (n + (xs.length : Int)) * (n + (xs.length : Int) - 1) := by
  induction xs with
  | nil =>
    intro m n S _ hm hD _ _ _
    simpa using ⟨hm, hD⟩
  | cons x xs ih =>
    intro m n S hn hm hD hxs hov hlen
    rw [List.length_cons] at hov hlen ⊢
    push_cast at hov hlen ⊢
    have hlen0 : (0 : Int) ≤ (xs.length : Int) := Int.ofNat_nonneg _
    have hB0 : 0 ≤ B := le_trans (abs_nonneg m) hm
    have hx : |x| ≤ B := hxs x (List.mem_cons_self x xs)
    have hBl : 0 ≤ B * (xs.length : Int) := mul_nonneg hB0 hlen0
    have hmn : |m * n| ≤ B * n := by
      rw [abs_mul, abs_of_nonneg hn]
      exact mul_le_mul_of_nonneg_right hm hn
    have hsum : |m * n + x| ≤ B * n + B := le_trans (abs_add _ _) (add_le_add hmn hx)
    have hp32 : InInt32 (m * n) := by
      obtain ⟨h1, h2⟩ := abs_le.mp hmn
      unfold InInt32
      constructor <;> linarith
    have hs32 : InInt32 (m * n + x) := by
      obtain ⟨h1, h2⟩ := abs_le.mp hsum
      unfold InInt32
      constructor <;> linarith
    have hmu : meanUpdate m n x = Int.tdiv (m * n + x) (n + 1) :=
      meanUpdate_exact hn (by linarith) hp32 hs32
    have hcnt : add_i32 n 1 = n + 1 :=
      wrapInt32_eq_self (by unfold InInt32; constructor <;> linarith)
    have hpos : 0 < n + 1 := by linarith
    obtain ⟨hr, hq, _, _⟩ := tdiv_pos_spec (m * n + x) hpos
    have hqB : |Int.tdiv (m * n + x) (n + 1)| ≤ B := by
      have h1 : (n + 1) * |Int.tdiv (m * n + x) (n + 1)| ≤ (n + 1) * B := by
        calc (n + 1) * |Int.tdiv (m * n + x) (n + 1)| ≤ |m * n + x| := hq
          _ ≤ B * n + B := hsum
          _ = (n + 1) * B := by ring
      exact le_of_mul_le_mul_left h1 hpos
    have hD1 : 2 * |S + x - (n + 1) * Int.tdiv (m * n + x) (n + 1)| ≤ (n + 1) * (n + 1 - 1) := by
      have hsplit : S + x - (n + 1) * Int.tdiv (m * n + x) (n + 1)
          = (S - n * m) + (m * n + x - (n + 1) * Int.tdiv (m * n + x) (n + 1)) := by ring
      have hr1 : |m * n + x - (n + 1) * Int.tdiv (m * n + x) (n + 1)| ≤ n := by
        have := Int.lt_add_one_iff.mp hr
        exact this
      have htri := abs_add (S - n * m)
        (m * n + x - (n + 1) * Int.tdiv (m * n + x) (n + 1))
      rw [hsplit]
      have hexp : (n + 1) * (n + 1 - 1) = n * (n - 1) + 2 * n := by ring
      rw [hexp]
      linarith
    have hrec := ih (Int.tdiv (m * n + x) (n + 1)) (n + 1) (S + x) (by linarith) hqB hD1
      (fun y hy => hxs y (List.mem_cons_of_mem x hy))
      (by have e : B * (n + 1 + (xs.length : Int)) = B * (n + ((xs.length : Int) + 1)) := by
            ring
          rw [e]; exact hov)
      (by linarith)
    rw [List.foldl_cons, List.sum_cons]
    simp only [hmu, hcnt]
    have e1 : n + ((xs.length : Int) + 1) = n + 1 + (xs.length : Int) := by ring
    have e2 : S + (x + xs.sum) = S + x + xs.sum := by ring
    rw [e1, e2]
    exact hrec

theorem abs_sub_ediv_le {N m S : Int} (hN : 0 < N)
    (hD : 2 * |S - N * m| ≤ N * (N - 1)) : |m - S / N| ≤ N / 2 := by
  have h1 := Int.emod_add_ediv S N
  have h2 := Int.emod_nonneg S (ne_of_gt hN)
  have h3 := Int.emod_lt_of_pos S hN
  have hup : S - N * m ≤ |S - N * m| := le_abs_self _
  have hdn : -(S - N * m) ≤ |S - N * m| := neg_le_abs _
  have hhalf : N ≤ 2 * (N / 2) + 1 := by omega
  have hNN : N * N ≤ N * (2 * (N / 2) + 1) := mul_le_mul_of_nonneg_left hhalf (le_of_lt hN)
  rw [abs_le]
  constructor
  · by_contra hc
    have hge : N / 2 + 1 ≤ S / N - m := by omega
    have hmul : N * (N / 2 + 1) ≤ N * (S / N - m) :=
      mul_le_mul_of_nonneg_left hge (le_of_lt hN)
    nlinarith
  · by_contra hc
    have hge : N / 2 + 1 ≤ m - S / N := by omega
    have hmul : N * (N / 2 + 1) ≤ N * (m - S / N) :=
      mul_le_mul_of_nonneg_left hge (le_of_lt hN)
    nlinarith

/-- C10, as stated, fails: feeding the temperatures 150, 349, 349, 349, 349, 349, 349, 349
leaves the running mean at 322 while floor(sum / 8) = 324, two units away; the task
itself holds the same mean after these eight samples. -/
theorem running_mean_within_one_counterexample :
    (runningMean [150, 349, 349, 349, 349, 349, 349, 349]).1 = 322 ∧
    ([150, 349, 349, 349, 349, 349, 349, 349] : List Int).sum / 8 = 324 ∧
    ¬ (|(runningMean [150, 349, 349, 349, 349, 349, 349, 349]).1
        - ([150, 349, 349, 349, 349, 349, 349, 349] : List Int).sum / 8| ≤ 1) ∧
    (processAll ProcessorState.init
      (([150, 349, 349, 349, 349, 349, 349, 349] : List Int).map
        (fun x => { temp := x, humidity := 5000, light := 500, tick := 0 }))).avgTemp = 322 := by
  decide!

/-- C10, amended: for every non-empty sequence of `N` integers of absolute value at most
`B`, with `B * N` below 2^31 so that no update overflows, the running mean after the
last update is within floor(N / 2) units of floor(sum / N); more precisely
2 * |sum - N * mean| is at most N * (N - 1).  Every prefix of such a sequence is such a
sequence, so the bound holds after every update. -/
theorem running_mean_error_bound (xs : List Int) (B : Int) (hne : xs ≠ [])
    (hB : ∀ x ∈ xs, |x| ≤ B) (hov : B * (xs.length : Int) < 2 ^ 31)
    (hlen : (xs.length : Int) < 2 ^ 31) :
    (runningMean xs).2 = (xs.length : Int) ∧
    2 * |xs.sum - (xs.length : Int) * (runningMean xs).1|
      ≤ (xs.length : Int) * ((xs.length : Int) - 1) ∧
    |(runningMean xs).1 - xs.sum / (xs.length : Int)| ≤ (xs.length : Int) / 2 := by
  have hB0 : 0 ≤ B := by
    obtain ⟨x, hx⟩ := List.exists_mem_of_ne_nil xs hne
    exact le_trans (abs_nonneg x) (hB x hx)
  have hN : (0 : Int) < (xs.length : Int) := by
    have := List.length_pos.mpr hne
    exact_mod_cast this
  have h := runningMean_fold_inv B xs 0 0 0 (le_refl _) (by simpa using hB0) (by simp) hB
    (by simpa using hov) (by simpa using hlen)
  simp only [zero_add] at h
  obtain ⟨hc, _, hD⟩ := h
  exact ⟨hc, hD, abs_sub_ediv_le hN hD⟩

/-- Witness of C10 (amended) on the sequence 150, 349, 349, 349, 349, 349, 349, 349 with
bound 349: the running mean is within 8 / 2 = 4 units of floor(sum / 8). -/
theorem running_mean_error_bound_witness :
    |(runningMean [150, 349, 349, 349, 349, 349, 349, 349]).1
      - ([150, 349, 349, 349, 349, 349, 349, 349] : List Int).sum
        / (([150, 349, 349, 349, 349, 349, 349, 349] : List Int).length : Int)|
      ≤ (([150, 349, 349, 349, 349, 349, 349, 349] : List Int).length : Int) / 2 :=
  (running_mean_error_bound [150, 349, 349, 349, 349, 349, 349, 349] 349 (by decide)
    (by decide) (by decide) (by decide)).2.2

/-! ## End-to-end count of alerts -/

theorem readSensor_temp_range (tick lfsr : Nat) :
    150 ≤ (readSensor tick lfsr).1.temp ∧ (readSensor tick lfsr).1.temp < 350 := by
  simp only [readSensor]
  rw [add_i32_tmod 150 _ (by norm_num) (by norm_num) (by norm_num)]
  omega

theorem sensorStream_temp_range (w n : Nat) :
    ∀ tick lfsr : Nat, ∀ d ∈ sensorStream w n tick lfsr, 150 ≤ d.temp ∧ d.temp < 350 := by
  induction n with
  | zero => intro tick lfsr d hd; simp [sensorStream] at hd
  | succ n ih =>
    intro tick lfsr d hd
    simp only [sensorStream, List.mem_cons] at hd
    rcases hd with rfl | hd
    · exact readSensor_temp_range tick lfsr
    · exact ih _ _ d hd

theorem processAlerts_from_prev (ds : List SensorData_t) :
    ∀ st : ProcessorState, 0 ≤ st.prevTemp → st.prevTemp < 2 ^ 31 →
      (∀ d ∈ ds, 0 ≤ d.temp ∧ d.temp < 2 ^ 31) →
      (processAlerts st ds).length = adjacentJumps (st.prevTemp :: ds.map (fun d => d.temp)) := by
  induction ds with
  | nil => intro st _ _ _; simp [processAlerts, adjacentJumps]
  | cons d ds ih =>
    intro st h0 h1 hds
    obtain ⟨hd0, hd1⟩ := hds d (List.mem_cons_self d ds)
    have habs : abs_i32 (sub_i32 d.temp st.prevTemp) = |d.temp - st.prevTemp| :=
      abs_sub_i32 (by omega) (by omega)
    have hrec := ih (DataProcessorTask_step st d).1 (by rw [step_prevTemp]; exact hd0)
      (by rw [step_prevTemp]; exact hd1) (fun e he => hds e (List.mem_cons_of_mem d he))
    rw [step_prevTemp] at hrec
    simp only [processAlerts, List.length_append, List.map_cons, adjacentJumps, hrec]
    rw [step_alerts, habs]
    by_cases hc : 50 < |d.temp - st.prevTemp|
    · rw [if_pos ⟨h0, hc⟩, if_pos hc]; rfl
    · rw [if_neg (fun h => hc h.2), if_neg hc]; rfl

theorem processAlerts_init (ds : List SensorData_t)
    (hds : ∀ d ∈ ds, 0 ≤ d.temp ∧ d.temp < 2 ^ 31) :
    (processAlerts ProcessorState.init ds).length = adjacentJumps (ds.map (fun d => d.temp)) := by
  cases ds with
  | nil => simp [processAlerts, adjacentJumps]
  | cons d ds =>
    obtain ⟨hd0, hd1⟩ := hds d (List.mem_cons_self d ds)
    have hfirst : (DataProcessorTask_step ProcessorState.init d).2 = [] := by
      rw [step_alerts]
      exact if_neg (fun hc => absurd hc.1 (by decide))
    have hrec := processAlerts_from_prev ds (DataProcessorTask_step ProcessorState.init d).1
      (by rw [step_prevTemp]; exact hd0) (by rw [step_prevTemp]; exact hd1)
      (fun e he => hds e (List.mem_cons_of_mem d he))
    rw [step_prevTemp] at hrec
    simp only [processAlerts, hfirst, List.nil_append, List.map_cons, hrec]

/-- C11: for every number `n` of samples that the sensor simulator generates (from any
tick and any generator state, in particular from the seed) and that
`DataProcessorTask` processes in order from its initial locals, the number of
alerts sent equals the number of adjacent temperature pairs that differ by more than
50; the same holds when the generator state before each call of `readSensor` is
arbitrary.  For the first 10 ticks from the seed both numbers are 5. -/
theorem alerts_match_adjacent_jumps (w n tick lfsr : Nat) (calls : List (Nat × Nat)) :
    (processAlerts ProcessorState.init (sensorStream w n tick lfsr)).length =
      adjacentJumps ((sensorStream w n tick lfsr).map (fun d => d.temp)) ∧
    (processAlerts ProcessorState.init (calls.map (fun c => (readSensor c.1 c.2).1))).length =
      adjacentJumps ((calls.map (fun c => (readSensor c.1 c.2).1)).map (fun d => d.temp)) ∧
    (sensorStream 32 10 1 lfsrSeed).map (fun d => d.temp) =
      [318, 196, 159, 215, 180, 208, 234, 315, 259, 177] ∧
    adjacentJumps [318, 196, 159, 215, 180, 208, 234, 315, 259, 177] = 5 ∧
    (processAlerts ProcessorState.init (sensorStream 32 10 1 lfsrSeed)).length = 5 := by
  have hgen : (processAlerts ProcessorState.init (sensorStream w n tick lfsr)).length =
      adjacentJumps ((sensorStream w n tick lfsr).map (fun d => d.temp)) := by
    apply processAlerts_init
    intro d hd
    have := sensorStream_temp_range w n tick lfsr d hd
    omega
  have hcalls : (processAlerts ProcessorState.init
      (calls.map (fun c => (readSensor c.1 c.2).1))).length =
      adjacentJumps ((calls.map (fun c => (readSensor c.1 c.2).1)).map (fun d => d.temp)) := by
    apply processAlerts_init
    intro d hd
    obtain ⟨c, _, rfl⟩ := List.mem_map.mp hd
    have := readSensor_temp_range c.1 c.2
    omega
  refine ⟨hgen, hcalls, by decide!, by decide!, by decide!⟩

/-! ## Command task -/

theorem command_name_cases (c : Nat) :
    (c % 3 = 0 ∧ commands.getD (c % 3) "" = "STATUS") ∨
    (c % 3 = 1 ∧ commands.getD (c % 3) "" = "READ_SENSORS") ∨
    (c % 3 = 2 ∧ commands.getD (c % 3) "" = "CALIBRATE") := by
  have h : c % 3 = 0 ∨ c % 3 = 1 ∨ c % 3 = 2 := by omega
  rcases h with h | h | h <;> rw [h] <;> simp [commands]

theorem snprintf_command_whole (c : Nat) :
    snprintf 32 (cbytes (commands.getD (c % 3) "")) = cbytes (commands.getD (c % 3) "") := by
  rcases command_name_cases c with ⟨_, h⟩ | ⟨_, h⟩ | ⟨_, h⟩ <;> rw [h] <;> decide

theorem step_command (now c : Nat) :
    (CommandHandlerTask_step now c).1 =
      { command := cbytes (commands.getD (c % 3) ""), cmd_id := c } := by
  simp only [CommandHandlerTask_step, snprintf_command_whole]

theorem step_cmd_id_next (now c : Nat) :
    (CommandHandlerTask_step now c).2.2 = (c + 1) % 2 ^ 32 := rfl

theorem cmdIdAt_succ (k : Nat) : cmdIdAt (k + 1) = (cmdIdAt k + 1) % 2 ^ 32 := by
  unfold cmdIdAt
  rw [Function.iterate_succ_apply']
  rfl

theorem cmdIdAt_eq_mod (k : Nat) : cmdIdAt k = k % 2 ^ 32 := by
  induction k with
  | zero => rfl
  | succ k ih => rw [cmdIdAt_succ, ih]; omega

/-- C12, amended: for every dispatch number `k < 2^32` (counted from 0), the
`k`-th command has id `k` and its field holds the whole name `commands[k mod 3]`; the
first seven commands are STATUS, READ_SENSORS, CALIBRATE, STATUS, READ_SENSORS,
CALIBRATE, STATUS with ids 0 to 6. -/
theorem command_cycle (k : Nat) (hk : k < 2 ^ 32) :
    (commandAt k).cmd_id = k ∧
    (commandAt k).command = cbytes (commands.getD (k % 3) "") ∧
    commands = ["STATUS", "READ_SENSORS", "CALIBRATE"] ∧
    (List.range 7).map commandAt =
      [{ command := cbytes "STATUS", cmd_id := 0 },
       { command := cbytes "READ_SENSORS", cmd_id := 1 },
       { command := cbytes "CALIBRATE", cmd_id := 2 },
       { command := cbytes "STATUS", cmd_id := 3 },
       { command := cbytes "READ_SENSORS", cmd_id := 4 },
       { command := cbytes "CALIBRATE", cmd_id := 5 },
       { command := cbytes "STATUS", cmd_id := 6 }] := by
  have hid : cmdIdAt k = k := by rw [cmdIdAt_eq_mod]; exact Nat.mod_eq_of_lt hk
  refine ⟨?_, ?_, rfl, by decide⟩
  · unfold commandAt
    rw [step_command, hid]
  · unfold commandAt
    rw [step_command, hid]

/-- Witness of C12 at the dispatch number 4: id 4, name READ_SENSORS. -/
theorem command_cycle_witness :
    (commandAt 4).cmd_id = 4 ∧ (commandAt 4).command = cbytes "READ_SENSORS" := by
  have h := command_cycle 4 (by norm_num)
  exact ⟨h.1, h.2.1.trans (by decide)⟩

/-- C18, as stated, fails at the last value of the 32-bit counter: the command
dispatched with id 4294967295 is STATUS, the counter then wraps to 0, and the next
command is STATUS again with the smaller id 0. -/
theorem command_successor_counterexample :
    (CommandHandlerTask_step 0 4294967295).1 =
      { command := cbytes "STATUS", cmd_id := 4294967295 } ∧
    (CommandHandlerTask_step 0 (CommandHandlerTask_step 0 4294967295).2.2).1 =
      { command := cbytes "STATUS", cmd_id := 0 } ∧
    ¬ ((CommandHandlerTask_step 0 4294967295).1.cmd_id <
        (CommandHandlerTask_step 0 (CommandHandlerTask_step 0 4294967295).2.2).1.cmd_id) ∧
    (CommandHandlerTask_step 0 (CommandHandlerTask_step 0 4294967295).2.2).1.command ≠
      cyclicSuccessor (CommandHandlerTask_step 0 4294967295).1.command := by
  decide

/-- C18, amended: for every value `c` of the 32-bit counter except the last one,
4294967295, the dispatch that follows the dispatch with id `c` has the id `c + 1` and
the command that follows in the order STATUS, READ_SENSORS, CALIBRATE, STATUS. -/
theorem command_successor (now1 now2 c : Nat) (hc : c < 2 ^ 32 - 1) :
    (CommandHandlerTask_step now1 c).1.cmd_id = c ∧
    (CommandHandlerTask_step now2 (CommandHandlerTask_step now1 c).2.2).1.cmd_id = c + 1 ∧
    (CommandHandlerTask_step now1 c).1.cmd_id <
      (CommandHandlerTask_step now2 (CommandHandlerTask_step now1 c).2.2).1.cmd_id ∧
    (CommandHandlerTask_step now2 (CommandHandlerTask_step now1 c).2.2).1.command =
      cyclicSuccessor (CommandHandlerTask_step now1 c).1.command := by
  have hnext : (CommandHandlerTask_step now1 c).2.2 = c + 1 := by
    rw [step_cmd_id_next]
    exact Nat.mod_eq_of_lt (by omega)
  rw [hnext, step_command, step_command]
  refine ⟨rfl, rfl, Nat.lt_succ_self c, ?_⟩
  show cbytes (commands.getD ((c + 1) % 3) "") = cyclicSuccessor (cbytes (commands.getD (c % 3) ""))
  rcases command_name_cases c with ⟨h3, h⟩ | ⟨h3, h⟩ | ⟨h3, h⟩
  · have h1 : (c + 1) % 3 = 1 := by omega
    rw [h, h1]; decide
  · have h1 : (c + 1) % 3 = 2 := by omega
    rw [h, h1]; decide
  · have h1 : (c + 1) % 3 = 0 := by omega
    rw [h, h1]; decide

/-- Witness of C18 (amended) at the counter value 2: CALIBRATE with id 2 is followed
by STATUS with id 3. -/
theorem command_successor_witness :
    (CommandHandlerTask_step 5000 2).1.cmd_id = 2 ∧
    (CommandHandlerTask_step 10000 (CommandHandlerTask_step 5000 2).2.2).1.cmd_id = 3 ∧
    (CommandHandlerTask_step 5000 2).1.cmd_id <
      (CommandHandlerTask_step 10000 (CommandHandlerTask_step 5000 2).2.2).1.cmd_id ∧
    (CommandHandlerTask_step 10000 (CommandHandlerTask_step 5000 2).2.2).1.command =
      cyclicSuccessor (CommandHandlerTask_step 5000 2).1.command :=
  command_successor 5000 10000 2 (by norm_num)

/-! ## Task priorities -/

/-- C17: `SensorReaderTask` is created with a priority strictly above that of each of
the other five tasks, and `DataProcessorTask` is in the second tier: strictly below
`SensorReaderTask` and not below any other task. -/
theorem sensor_highest_processor_second (idle : Nat) (t : TaskId)
    (ht : t ≠ TaskId.SensorReaderTask) :
    taskPriority idle t < taskPriority idle TaskId.SensorReaderTask ∧
    taskPriority idle TaskId.DataProcessorTask < taskPriority idle TaskId.SensorReaderTask ∧
    taskPriority idle t ≤ taskPriority idle TaskId.DataProcessorTask ∧
    createdTasks.length = 6 ∧ createdTasks.Nodup ∧ t ∈ createdTasks := by
  refine ⟨?_, by simp [taskPriority], ?_, rfl, by decide, ?_⟩
  · cases t <;> simp [taskPriority] at ht ⊢
  · cases t <;> simp [taskPriority] at ht ⊢
  · cases t <;> simp [createdTasks]

/-- Witness of C17 for the monitor task with idle priority 0: 2 < 3 and 2 ≤ 2. -/
theorem sensor_highest_processor_second_witness :
    taskPriority 0 TaskId.SystemMonitorTask < taskPriority 0 TaskId.SensorReaderTask ∧
    taskPriority 0 TaskId.SystemMonitorTask ≤ taskPriority 0 TaskId.DataProcessorTask :=
  ⟨(sensor_highest_processor_second 0 TaskId.SystemMonitorTask (by decide)).1,
   (sensor_highest_processor_second 0 TaskId.SystemMonitorTask (by decide)).2.2.1⟩

/-! ## Alert text -/

theorem cbytes_append (a b : String) : cbytes (a ++ b) = cbytes a ++ cbytes b := by
  simp [cbytes, String.data_append]

theorem fmt_5_1f_two_digits_length :
    ∀ k : Fin 900, (cbytes (fmt_5_1f (100 + (k.val : Int)))).length = 5 := by
  decide!

theorem fmt_5_1f_length {a : Int} (h0 : 100 ≤ a) (h1 : a < 1000) :
    (cbytes (fmt_5_1f a)).length = 5 := by
  have hk : (a - 100).toNat < 900 := by omega
  have h := fmt_5_1f_two_digits_length ⟨(a - 100).toNat, hk⟩
  have e : 100 + (((a - 100).toNat : Nat) : Int) = a := by omega
  simp only [e] at h
  exact h

/-- C20: whenever the two conversions show values from 10.0 to 99.9, which includes
every previous and current temperature in [150,350), the formatted alert text
(colour escape, `Rapid temp change: `, two temperatures with one decimal and the
degree sign, colour reset) is 48 bytes long, hence at most 63, and `snprintf` with the
size 64 stores it whole. -/
theorem alert_text_fits (a b : Int) (ha0 : 100 ≤ a) (ha1 : a < 1000)
    (hb0 : 100 ≤ b) (hb1 : b < 1000) :
    (cbytes (alertText a b)).length = 48 ∧
    (cbytes (alertText a b)).length ≤ 63 ∧
    AlertData_t.message { fromTemp := a, toTemp := b } = cbytes (alertText a b) := by
  have hlen : (cbytes (alertText a b)).length = 48 := by
    have h1 : (cbytes "\x1B[31mRapid temp change: ").length = 24 := by decide
    have h2 : (cbytes "°C -> ").length = 7 := by decide
    have h3 : (cbytes "°C\x1B[0m").length = 7 := by decide
    unfold alertText
    simp only [cbytes_append, List.length_append, h1, h2, h3,
      fmt_5_1f_length ha0 ha1, fmt_5_1f_length hb0 hb1]
  refine ⟨hlen, by omega, ?_⟩
  show List.take (64 - 1) (cbytes (alertText a b)) = cbytes (alertText a b)
  exact List.take_of_length_le (by omega)

/-- Witness of C20 for the alert from 20.0 to 26.0 degrees. -/
theorem alert_text_fits_witness :
    (cbytes (alertText 200 260)).length = 48 ∧
    AlertData_t.message { fromTemp := 200, toTemp := 260 } = cbytes (alertText 200 260) :=
  ⟨(alert_text_fits 200 260 (by norm_num) (by norm_num) (by norm_num) (by norm_num)).1,
   (alert_text_fits 200 260 (by norm_num) (by norm_num) (by norm_num) (by norm_num)).2.2⟩

/-! ## Queues and tasks: what an action touches -/

theorem xQueueSend_eq_some {α : Type} (q q1 : Queue α) (x : α) :
    xQueueSend q x = some q1 ↔
      q.items.length < q.uxLength ∧ q1 = { uxLength := q.uxLength, items := q.items ++ [x] } := by
  unfold xQueueSend
  split
  · next h => simp [h, eq_comm]
  · next h => simp [h]

theorem xQueueReceive_eq_some {α : Type} (q q1 : Queue α) (x : α) :
    xQueueReceive q = some (x, q1) ↔
      q.items = x :: q1.items ∧ q1.uxLength = q.uxLength := by
  unfold xQueueReceive
  cases q with
  | mk n items =>
    cases q1 with
    | mk n1 items1 =>
      cases items with
      | nil => simp
      | cons y rest =>
        simp only [Option.some.injEq, Prod.mk.injEq, Queue.mk.injEq, List.cons.injEq]
        constructor
        · rintro ⟨rfl, rfl, rfl⟩; exact ⟨⟨rfl, rfl⟩, rfl⟩
        · rintro ⟨⟨rfl, rfl⟩, rfl⟩; exact ⟨rfl, rfl, rfl⟩

theorem run_nil (w : Nat) (s : SystemState) : SystemState.run w s [] = (s, []) := rfl

theorem run_cons (w : Nat) (s : SystemState) (a : Action) (rest : List Action) :
    SystemState.run w s (a :: rest) =
      ((SystemState.run w (s.exec w a).1 rest).1,
        (s.exec w a).2 ++ (SystemState.run w (s.exec w a).1 rest).2) := rfl

theorem sentSamples_append (e1 e2 : List Event) :
    sentSamples (e1 ++ e2) = sentSamples e1 ++ sentSamples e2 := by
  simp [sentSamples, List.filterMap_append]

theorem receivedSamples_append (e1 e2 : List Event) :
    receivedSamples (e1 ++ e2) = receivedSamples e1 ++ receivedSamples e2 := by
  simp [receivedSamples, List.filterMap_append]

theorem exec_xCommandQueue (w : Nat) (s : SystemState) (a : Action) :
    (s.exec w a).1.xCommandQueue = s.xCommandQueue := by
  cases a <;>
    simp only [SystemState.exec, SystemState.step, SensorReaderTask_action,
      DataProcessorTask_action, AlertTask_action, DataLoggerTask_action] <;>
    (repeat' split) <;> simp_all [Option.getD]

theorem run_xCommandQueue (w : Nat) (sched : List Action) :
    ∀ s : SystemState, (SystemState.run w s sched).1.xCommandQueue = s.xCommandQueue := by
  induction sched with
  | nil => intro s; rfl
  | cons a rest ih =>
    intro s
    rw [run_cons]
    exact (ih _).trans (exec_xCommandQueue w s a)

theorem exec_sensor_conservation (w : Nat) (s : SystemState) (a : Action) :
    s.xSensorQueue.items ++ sentSamples (s.exec w a).2 =
      (receivedSamples (s.exec w a).2).map Prod.snd ++ (s.exec w a).1.xSensorQueue.items := by
  cases a <;>
    simp only [SystemState.exec, SystemState.step, SensorReaderTask_action,
      DataProcessorTask_action, AlertTask_action, DataLoggerTask_action] <;>
    (repeat' split) <;>
    simp_all [Option.getD, sentSamples, receivedSamples, xQueueSend_eq_some,
      xQueueReceive_eq_some]

theorem run_sensor_conservation (w : Nat) (sched : List Action) :
    ∀ s : SystemState,
      s.xSensorQueue.items ++ sentSamples (SystemState.run w s sched).2 =
        (receivedSamples (SystemState.run w s sched).2).map Prod.snd ++
          (SystemState.run w s sched).1.xSensorQueue.items := by
  induction sched with
  | nil => intro s; simp [run_nil, sentSamples, receivedSamples]
  | cons a rest ih =>
    intro s
    rw [run_cons]
    simp only [sentSamples_append, receivedSamples_append, List.map_append,
      List.append_assoc]
    rw [← List.append_assoc, exec_sensor_conservation w s a, List.append_assoc, ih]

theorem exec_received_tasks (w : Nat) (s : SystemState) (a : Action) :
    ∀ p ∈ receivedSamples (s.exec w a).2,
      p.1 = TaskId.DataProcessorTask ∨ p.1 = TaskId.DataLoggerTask := by
  cases a <;>
    simp only [SystemState.exec, SystemState.step, SensorReaderTask_action,
      DataProcessorTask_action, AlertTask_action, DataLoggerTask_action] <;>
    (repeat' split) <;>
    simp_all [Option.getD, receivedSamples]

theorem run_received_tasks (w : Nat) (sched : List Action) :
    ∀ s : SystemState, ∀ p ∈ receivedSamples (SystemState.run w s sched).2,
      p.1 = TaskId.DataProcessorTask ∨ p.1 = TaskId.DataLoggerTask := by
  induction sched with
  | nil => intro s p hp; simp [run_nil, receivedSamples] at hp
  | cons a rest ih =>
    intro s p hp
    rw [run_cons, receivedSamples_append, List.mem_append] at hp
    rcases hp with hp | hp
    · exact exec_received_tasks w s a p hp
    · exact ih _ p hp

theorem xQueueReceive_none {α : Type} (q : Queue α) :
    xQueueReceive q = none ↔ q.items = [] := by
  unfold xQueueReceive
  split
  · next h => simp [h]
  · next x rest h => simp [h]

theorem exec_logger_receive (w : Nat) (s : SystemState) (d : SensorData_t)
    (rest : List SensorData_t) (h : s.xSensorQueue.items = d :: rest) :
    (s.exec w Action.DataLoggerTask).1.xSensorQueue.items = rest ∧
    receivedSamples (s.exec w Action.DataLoggerTask).2 = [(TaskId.DataLoggerTask, d)] := by
  simp only [SystemState.exec, SystemState.step, DataLoggerTask_action]
  split
  · next hq =>
    rw [xQueueReceive_none] at hq
    rw [hq] at h
    cases h
  · next d1 q1 hq =>
    rw [xQueueReceive_eq_some] at hq
    rw [hq.1] at h
    cases h
    simp [Option.getD, receivedSamples]

theorem exec_processor_receive (w : Nat) (s : SystemState) (d : SensorData_t)
    (rest : List SensorData_t) (h : s.xSensorQueue.items = d :: rest)
    (hp : s.processorAlert = none) :
    (s.exec w Action.DataProcessorTask).1.xSensorQueue.items = rest ∧
    receivedSamples (s.exec w Action.DataProcessorTask).2 =
      [(TaskId.DataProcessorTask, d)] := by
  simp only [SystemState.exec, SystemState.step, DataProcessorTask_action, hp]
  split
  · next hq =>
    rw [xQueueReceive_none] at hq
    rw [hq] at h
    cases h
  · next d1 q1 hq =>
    rw [xQueueReceive_eq_some] at hq
    rw [hq.1] at h
    cases h
    (repeat' split) <;> simp [Option.getD, receivedSamples]

/-- C19: an action of `SystemMonitorTask` or of `CommandHandlerTask` leaves the sensor,
alert and command queues as they are and performs no queue operation, and the
command queue still is the empty queue created at startup after every schedule of
the six tasks. -/
theorem monitor_command_leave_queues (w : Nat) (s : SystemState) (now : Nat)
    (heapFirst : Bool) (sched : List Action) :
    (s.exec w (Action.SystemMonitorTask now heapFirst)).1.xSensorQueue = s.xSensorQueue ∧
    (s.exec w (Action.SystemMonitorTask now heapFirst)).1.xAlertQueue = s.xAlertQueue ∧
    (s.exec w (Action.SystemMonitorTask now heapFirst)).1.xCommandQueue = s.xCommandQueue ∧
    queueOps (s.exec w (Action.SystemMonitorTask now heapFirst)).2 = [] ∧
    (s.exec w (Action.CommandHandlerTask now)).1.xSensorQueue = s.xSensorQueue ∧
    (s.exec w (Action.CommandHandlerTask now)).1.xAlertQueue = s.xAlertQueue ∧
    (s.exec w (Action.CommandHandlerTask now)).1.xCommandQueue = s.xCommandQueue ∧
    queueOps (s.exec w (Action.CommandHandlerTask now)).2 = [] ∧
    (SystemState.run w main_blinky sched).1.xCommandQueue =
      xQueueCreateStatic COMMAND_QUEUE_LENGTH := by
  refine ⟨rfl, rfl, rfl, rfl, rfl, rfl, rfl, rfl, ?_⟩
  rw [run_xCommandQueue]
  rfl

/-- C15: after every schedule from startup, the samples sent to the sensor queue are, in
order, the samples received so far followed by those still in the queue, and every
reception is made by `DataProcessorTask` or by `DataLoggerTask`: each sample sent
goes to one reception, made by one of the two tasks.  The task that receives removes
the sample from the queue, and a reception by `DataLoggerTask` changes no local of
`DataProcessorTask`, leaves the alert queue as it is, sends no alert and prints
nothing. -/
theorem sample_received_once (w : Nat) (sched : List Action) (s : SystemState) :
    sentSamples (SystemState.run w main_blinky sched).2 =
      (receivedSamples (SystemState.run w main_blinky sched).2).map Prod.snd ++
        (SystemState.run w main_blinky sched).1.xSensorQueue.items ∧
    (∀ p ∈ receivedSamples (SystemState.run w main_blinky sched).2,
      p.1 = TaskId.DataProcessorTask ∨ p.1 = TaskId.DataLoggerTask) ∧
    (∀ d rest, s.xSensorQueue.items = d :: rest →
      (s.exec w Action.DataLoggerTask).1.xSensorQueue.items = rest ∧
      receivedSamples (s.exec w Action.DataLoggerTask).2 = [(TaskId.DataLoggerTask, d)]) ∧
    (∀ d rest, s.xSensorQueue.items = d :: rest → s.processorAlert = none →
      (s.exec w Action.DataProcessorTask).1.xSensorQueue.items = rest ∧
      receivedSamples (s.exec w Action.DataProcessorTask).2 =
        [(TaskId.DataProcessorTask, d)]) ∧
    (s.exec w Action.DataLoggerTask).1.processor = s.processor ∧
    (s.exec w Action.DataLoggerTask).1.processorAlert = s.processorAlert ∧
    (s.exec w Action.DataLoggerTask).1.xAlertQueue = s.xAlertQueue ∧
    sentAlerts (s.exec w Action.DataLoggerTask).2 = [] ∧
    printed (s.exec w Action.DataLoggerTask).2 = [] := by
  have hcons := run_sensor_conservation w sched main_blinky
  have hempty : main_blinky.xSensorQueue.items = [] := rfl
  rw [hempty, List.nil_append] at hcons
  refine ⟨hcons, run_received_tasks w sched main_blinky, ?_, ?_, ?_, ?_, ?_, ?_, ?_⟩
  · intro d rest h
    exact exec_logger_receive w s d rest h
  · intro d rest h hp
    exact exec_processor_receive w s d rest h hp
  all_goals
    simp only [SystemState.exec, SystemState.step, DataLoggerTask_action]
    split <;> simp_all [Option.getD, sentAlerts, printed]

/-- Witness of C15: the sensor task sends two samples, the statistics task receives the
first and the logger the second; the logger leaves the locals of the statistics task
as they were. -/
theorem sample_received_once_witness :
    receivedSamples (SystemState.run 32 main_blinky
      [Action.SensorReaderTask, Action.SensorReaderTask, Action.DataProcessorTask,
        Action.DataLoggerTask]).2 =
      [(TaskId.DataProcessorTask, { temp := 318, humidity := 3984, light := 792, tick := 1 }),
       (TaskId.DataLoggerTask, { temp := 196, humidity := 6623, light := 643, tick := 2 })] ∧
    (TaskId.DataLoggerTask = TaskId.DataProcessorTask ∨
      TaskId.DataLoggerTask = TaskId.DataLoggerTask) := by
  have hr : receivedSamples (SystemState.run 32 main_blinky
      [Action.SensorReaderTask, Action.SensorReaderTask, Action.DataProcessorTask,
        Action.DataLoggerTask]).2 =
      [(TaskId.DataProcessorTask, { temp := 318, humidity := 3984, light := 792, tick := 1 }),
       (TaskId.DataLoggerTask, { temp := 196, humidity := 6623, light := 643, tick := 2 })] := by
    decide!
  refine ⟨hr, ?_⟩
  have h := (sample_received_once 32
    [Action.SensorReaderTask, Action.SensorReaderTask, Action.DataProcessorTask,
      Action.DataLoggerTask] main_blinky).2.1
    (TaskId.DataLoggerTask, { temp := 196, humidity := 6623, light := 643, tick := 2 })
    (by rw [hr]; simp)
  exact h

/-! ## Sensor task: sequence numbers -/

theorem sensorStream_prefix_succ (w n : Nat) :
    ∀ tick lfsr : Nat, sensorStream w n tick lfsr <+: sensorStream w (n + 1) tick lfsr := by
  induction n with
  | zero => intro tick lfsr; simp [sensorStream]
  | succ n ih =>
    intro tick lfsr
    rw [sensorStream, sensorStream]
    exact (List.prefix_cons_inj _).mpr (ih _ _)

theorem sensorFuture_prefix_succ (w n : Nat) (s : SystemState) :
    sensorFuture w n s <+: sensorFuture w (n + 1) s := by
  unfold sensorFuture
  split
  · exact (List.prefix_cons_inj _).mpr (sensorStream_prefix_succ w n _ _)
  · exact sensorStream_prefix_succ w n _ _

theorem exec_sent_future (w n : Nat) (s : SystemState) (a : Action)
    (ha : a.task ≠ TaskId.SystemMonitorTask) :
    sentSamples (s.exec w a).2 ++ sensorFuture w n (s.exec w a).1 <+:
      sensorFuture w (n + 1) s := by
  have hmono := sensorFuture_prefix_succ w n s
  have hstream := sensorStream_prefix_succ w n ((s.sensorTick + 1) % 2 ^ w) s.lfsr
  cases a <;>
    simp only [SystemState.exec, SystemState.step, SensorReaderTask_action,
      DataProcessorTask_action, AlertTask_action, DataLoggerTask_action] <;>
    (repeat' split) <;>
    simp_all [Option.getD, sentSamples, sensorFuture, Action.task, sensorStream,
      List.prefix_cons_inj]

theorem run_sent_prefix (w : Nat) (sched : List Action) :
    ∀ s : SystemState, (∀ a ∈ sched, a.task ≠ TaskId.SystemMonitorTask) →
      sentSamples (SystemState.run w s sched).2 <+: sensorFuture w sched.length s := by
  induction sched with
  | nil => intro s _; simp [run_nil, sentSamples]
  | cons a rest ih =>
    intro s h
    have h1 := ih (s.exec w a).1 (fun b hb => h b (List.mem_cons_of_mem a hb))
    have h2 := exec_sent_future w rest.length s a (h a (List.mem_cons_self a rest))
    rw [run_cons, sentSamples_append, List.length_cons]
    exact List.IsPrefix.trans ((List.prefix_append_right_inj _).mpr h1) h2

theorem exec_frame (w : Nat) (s : SystemState) (a : Action) :
    (a.task ≠ TaskId.SensorReaderTask →
      (s.exec w a).1.sensorTick = s.sensorTick ∧ (s.exec w a).1.sensorData = s.sensorData) ∧
    (a.task ≠ TaskId.DataProcessorTask →
      (s.exec w a).1.processor = s.processor ∧
      (s.exec w a).1.processorAlert = s.processorAlert) ∧
    (a.task ≠ TaskId.CommandHandlerTask → (s.exec w a).1.cmd_id = s.cmd_id) ∧
    (a.task ≠ TaskId.SensorReaderTask → a.task ≠ TaskId.SystemMonitorTask →
      (s.exec w a).1.lfsr = s.lfsr) := by
  cases a <;>
    simp only [SystemState.exec, SystemState.step, SensorReaderTask_action,
      DataProcessorTask_action, AlertTask_action, DataLoggerTask_action] <;>
    (repeat' split) <;>
    simp_all [Option.getD, Action.task]

theorem exec_ignores_lfsr (w : Nat) (s : SystemState) (a : Action) (l : Nat)
    (h1 : a.task ≠ TaskId.SensorReaderTask) (h2 : a.task ≠ TaskId.SystemMonitorTask) :
    ({ s with lfsr := l } : SystemState).exec w a =
      ({ (s.exec w a).1 with lfsr := l }, (s.exec w a).2) := by
  cases a <;>
    simp only [SystemState.exec, SystemState.step, SensorReaderTask_action,
      DataProcessorTask_action, AlertTask_action, DataLoggerTask_action] <;>
    (repeat' split) <;>
    simp_all [Option.getD, Action.task]

theorem exec_ignores_sensor_locals (w : Nat) (s : SystemState) (a : Action) (t : Nat)
    (d : Option SensorData_t) (h1 : a.task ≠ TaskId.SensorReaderTask) :
    ({ s with sensorTick := t, sensorData := d } : SystemState).exec w a =
      ({ (s.exec w a).1 with sensorTick := t, sensorData := d }, (s.exec w a).2) := by
  cases a <;>
    simp only [SystemState.exec, SystemState.step, SensorReaderTask_action,
      DataProcessorTask_action, AlertTask_action, DataLoggerTask_action] <;>
    (repeat' split) <;>
    simp_all [Option.getD, Action.task]

theorem exec_ignores_processor_locals (w : Nat) (s : SystemState) (a : Action)
    (p : ProcessorState) (pa : Option (AlertData_t × SensorData_t))
    (h1 : a.task ≠ TaskId.DataProcessorTask) :
    ({ s with processor := p, processorAlert := pa } : SystemState).exec w a =
      ({ (s.exec w a).1 with processor := p, processorAlert := pa }, (s.exec w a).2) := by
  cases a <;>
    simp only [SystemState.exec, SystemState.step, SensorReaderTask_action,
      DataProcessorTask_action, AlertTask_action, DataLoggerTask_action] <;>
    (repeat' split) <;>
    simp_all [Option.getD, Action.task]

theorem exec_ignores_cmd_id (w : Nat) (s : SystemState) (a : Action) (c : Nat)
    (h1 : a.task ≠ TaskId.CommandHandlerTask) :
    ({ s with cmd_id := c } : SystemState).exec w a =
      ({ (s.exec w a).1 with cmd_id := c }, (s.exec w a).2) := by
  cases a <;>
    simp only [SystemState.exec, SystemState.step, SensorReaderTask_action,
      DataProcessorTask_action, AlertTask_action, DataLoggerTask_action] <;>
    (repeat' split) <;>
    simp_all [Option.getD, Action.task]

/-- C13, as stated, fails: the static `lfsr` is written by `SensorReaderTask` and by
`SystemMonitorTask`, and the second sample sent differs when a monitor action runs
between the first two sensor actions (196, 66.23 %, 643 lux without it; 193,
38.09 %, 660 lux with it). -/
theorem samples_independent_of_monitor_counterexample :
    (main_blinky.exec 32 Action.SensorReaderTask).1.lfsr ≠ main_blinky.lfsr ∧
    (main_blinky.exec 32 (Action.SystemMonitorTask 3000 true)).1.lfsr ≠ main_blinky.lfsr ∧
    sentSamples (SystemState.run 32 main_blinky
      [Action.SensorReaderTask, Action.SensorReaderTask]).2 =
      [{ temp := 318, humidity := 3984, light := 792, tick := 1 },
       { temp := 196, humidity := 6623, light := 643, tick := 2 }] ∧
    sentSamples (SystemState.run 32 main_blinky
      [Action.SensorReaderTask, Action.SystemMonitorTask 3000 true,
        Action.SensorReaderTask]).2 =
      [{ temp := 318, humidity := 3984, light := 792, tick := 1 },
       { temp := 193, humidity := 3809, light := 660, tick := 2 }] ∧
    sentSamples (SystemState.run 32 main_blinky
      [Action.SensorReaderTask, Action.SensorReaderTask]).2 ≠
    sentSamples (SystemState.run 32 main_blinky
      [Action.SensorReaderTask, Action.SystemMonitorTask 3000 true,
        Action.SensorReaderTask]).2 := by
  decide!

/-- C13, amended: besides the queues, the only variable shared between tasks is the
static `lfsr`, shared by `SensorReaderTask` and `SystemMonitorTask`.  An action of
another task neither writes nor reads `lfsr`; the locals of the sensor task, of the
statistics task and of the command task are neither written nor read by an action
of any other task.  Hence the samples sent in a schedule without monitor actions
are the first samples of the stream generated from the seed without interruption,
whichever actions of the other tasks run in between. -/
theorem shared_state_is_queues_and_lfsr (w : Nat) (s : SystemState) (a : Action)
    (sched : List Action) :
    (a.task ≠ TaskId.SensorReaderTask → a.task ≠ TaskId.SystemMonitorTask →
      (s.exec w a).1.lfsr = s.lfsr ∧
      ∀ l : Nat, ({ s with lfsr := l } : SystemState).exec w a =
        ({ (s.exec w a).1 with lfsr := l }, (s.exec w a).2)) ∧
    (a.task ≠ TaskId.SensorReaderTask →
      (s.exec w a).1.sensorTick = s.sensorTick ∧ (s.exec w a).1.sensorData = s.sensorData ∧
      ∀ (t : Nat) (d : Option SensorData_t),
        ({ s with sensorTick := t, sensorData := d } : SystemState).exec w a =
          ({ (s.exec w a).1 with sensorTick := t, sensorData := d }, (s.exec w a).2)) ∧
    (a.task ≠ TaskId.DataProcessorTask →
      (s.exec w a).1.processor = s.processor ∧
      (s.exec w a).1.processorAlert = s.processorAlert ∧
      ∀ (p : ProcessorState) (pa : Option (AlertData_t × SensorData_t)),
        ({ s with processor := p, processorAlert := pa } : SystemState).exec w a =
          ({ (s.exec w a).1 with processor := p, processorAlert := pa }, (s.exec w a).2)) ∧
    (a.task ≠ TaskId.CommandHandlerTask →
      (s.exec w a).1.cmd_id = s.cmd_id ∧
      ∀ c : Nat, ({ s with cmd_id := c } : SystemState).exec w a =
        ({ (s.exec w a).1 with cmd_id := c }, (s.exec w a).2)) ∧
    ((∀ b ∈ sched, b.task ≠ TaskId.SystemMonitorTask) →
      sentSamples (SystemState.run w main_blinky sched).2 <+:
        sensorStream w sched.length 1 lfsrSeed) := by
  obtain ⟨f1, f2, f3, f4⟩ := exec_frame w s a
  refine ⟨?_, ?_, ?_, ?_, ?_⟩
  · intro h1 h2
    exact ⟨f4 h1 h2, fun l => exec_ignores_lfsr w s a l h1 h2⟩
  · intro h1
    exact ⟨(f1 h1).1, (f1 h1).2, fun t d => exec_ignores_sensor_locals w s a t d h1⟩
  · intro h1
    exact ⟨(f2 h1).1, (f2 h1).2, fun p pa => exec_ignores_processor_locals w s a p pa h1⟩
  · intro h1
    exact ⟨f3 h1, fun c => exec_ignores_cmd_id w s a c h1⟩
  · intro h
    exact run_sent_prefix w sched main_blinky h

/-- Witness of C13 (amended): with actions of the statistics, command and logger tasks
in between, the two samples sent are the first two of the uninterrupted stream. -/
theorem shared_state_is_queues_and_lfsr_witness :
    sentSamples (SystemState.run 32 main_blinky
      [Action.SensorReaderTask, Action.DataProcessorTask, Action.CommandHandlerTask 5000,
        Action.SensorReaderTask, Action.DataLoggerTask]).2 <+:
      sensorStream 32 5 1 lfsrSeed :=
  (shared_state_is_queues_and_lfsr 32 main_blinky Action.DataLoggerTask
    [Action.SensorReaderTask, Action.DataProcessorTask, Action.CommandHandlerTask 5000,
      Action.SensorReaderTask, Action.DataLoggerTask]).2.2.2.2 (by decide)

/-! ## Pseudo-random source: zero state, closure and injectivity -/

theorem xor_mask_ge {x : Nat} (h : x < 2 ^ 15) : 2 ^ 15 ≤ x ^^^ 0xB400 := by
  apply Nat.testBit_implies_ge
  rw [Nat.testBit_xor, Nat.testBit_lt_two_pow h]
  decide

theorem specNext_odd {s : Nat} (h : s % 2 = 1) : specNext s = (s / 2) ^^^ 0xB400 := by
  unfold specNext
  rw [if_pos h, Nat.shiftRight_eq_div_pow, Nat.pow_one]

theorem specNext_even {s : Nat} (h : s % 2 = 0) : specNext s = s / 2 := by
  unfold specNext
  rw [if_neg (by omega), Nat.shiftRight_eq_div_pow]
  simp

theorem specNext_injective {s t : Nat} (hs : s < 2 ^ 16) (ht : t < 2 ^ 16)
    (h : specNext s = specNext t) : s = t := by
  have hs2 : s / 2 < 2 ^ 15 := by omega
  have ht2 : t / 2 < 2 ^ 15 := by omega
  rcases Nat.mod_two_eq_zero_or_one s with hs0 | hs1 <;>
    rcases Nat.mod_two_eq_zero_or_one t with ht0 | ht1
  · rw [specNext_even hs0, specNext_even ht0] at h
    omega
  · rw [specNext_even hs0, specNext_odd ht1] at h
    have := xor_mask_ge ht2
    omega
  · rw [specNext_odd hs1, specNext_even ht0] at h
    have := xor_mask_ge hs2
    omega
  · rw [specNext_odd hs1, specNext_odd ht1] at h
    have := Nat.xor_left_injective h
    simp only at this
    omega

theorem lfsrNext_injective {s t : Nat} (hs : s < 2 ^ 16) (ht : t < 2 ^ 16)
    (h : lfsrNext s = lfsrNext t) : s = t := by
  rw [lfsrNext_eq_specNext (lt_trans hs (by norm_num)),
    lfsrNext_eq_specNext (lt_trans ht (by norm_num))] at h
  exact specNext_injective hs ht h

theorem lfsrNext16_val (s : Fin (2 ^ 16)) : (lfsrNext16 s).val = lfsrNext s.val := by
  show lfsrNext s.val % 2 ^ 16 = lfsrNext s.val
  exact Nat.mod_eq_of_lt (lfsrNext_lt s.isLt)

theorem lfsrNext16_injective : Function.Injective lfsrNext16 := by
  intro s t h
  have hv : (lfsrNext16 s).val = (lfsrNext16 t).val := by rw [h]
  rw [lfsrNext16_val, lfsrNext16_val] at hv
  exact Fin.ext (lfsrNext_injective s.isLt t.isLt hv)

/-- C21: a call of `simple_rand` with `lfsr` equal to 0 returns 0 and leaves `lfsr` at 0,
and so does every number of further calls. -/
theorem zero_state_absorbing (n : Nat) :
    simple_rand 0 = (0, 0) ∧ lfsrNext^[n] 0 = 0 := by
  have h1 : lfsrNext 0 = 0 := by decide
  refine ⟨by decide, ?_⟩
  induction n with
  | zero => rfl
  | succ n ih => rw [Function.iterate_succ_apply', ih, h1]

/-- C27: for every state below 2^16 the next state is below 2^16 and, if the state was
not zero, the next state is not zero; hence after every number of calls from the seed
the 16-bit value returned is the whole of `lfsr`. -/
theorem sixteen_bit_closed (s n : Nat) (hs : s < 2 ^ 16) :
    lfsrNext s < 2 ^ 16 ∧ (s ≠ 0 → lfsrNext s ≠ 0) ∧
    lfsrAfter n < 2 ^ 16 ∧
    (simple_rand (lfsrAfter n)).1 = (simple_rand (lfsrAfter n)).2 :=
  ⟨lfsrNext_lt hs, fun h0 => lfsrNext_ne_zero hs h0, lfsrAfter_lt n,
    simple_rand_fst_of_lt (lfsrAfter_lt n)⟩

/-- Witness of C27 at the seed. -/
theorem sixteen_bit_closed_witness :
    lfsrNext 0xACE1 < 2 ^ 16 ∧ lfsrNext 0xACE1 ≠ 0 :=
  ⟨(sixteen_bit_closed 0xACE1 0 (by norm_num)).1,
   (sixteen_bit_closed 0xACE1 0 (by norm_num)).2.1 (by norm_num)⟩

/-- C28: on the states below 2^16 the step of `simple_rand` is injective, and as a map
of the 16-bit states into themselves it is a bijection. -/
theorem lfsr_step_injective (s t : Nat) (hs : s < 2 ^ 16) (ht : t < 2 ^ 16)
    (h : (simple_rand s).2 = (simple_rand t).2) :
    s = t ∧ Function.Bijective lfsrNext16 ∧
    (∀ u : Fin (2 ^ 16), (lfsrNext16 u).val = (simple_rand u.val).2) :=
  ⟨lfsrNext_injective hs ht h, Finite.injective_iff_bijective.mp lfsrNext16_injective,
    fun u => lfsrNext16_val u⟩

/-- Witness of C28: the states 0xACE1 and 0xACE1 have the same successor and are
equal, and the step is a bijection of the 16-bit states. -/
theorem lfsr_step_injective_witness :
    (0xACE1 : Nat) = 0xACE1 ∧ Function.Bijective lfsrNext16 :=
  ⟨(lfsr_step_injective 0xACE1 0xACE1 (by norm_num) (by norm_num) rfl).1,
   (lfsr_step_injective 0xACE1 0xACE1 (by norm_num) (by norm_num) rfl).2.1⟩

/-! ## Monitor task -/

/-- C29: for every value of `lfsr` and either order of the two calls, an iteration of
`SystemMonitorTask` leaves `lfsr` two steps further, prints 70 + draw mod 10 as heap
percentage, between 70 and 79, and draw mod 5 as error count, between 0 and 4. -/
theorem monitor_iteration (heapFirst : Bool) (now lfsr : Nat) :
    (SystemMonitorTask_step heapFirst now lfsr).2 = lfsrNext^[2] lfsr ∧
    (SystemMonitorTask_step true now lfsr).1 =
      LogLine.monitor now (70 + ((simple_rand lfsr).1 : Int) % 10)
        (((simple_rand (lfsrNext lfsr)).1 : Int) % 5) ∧
    (SystemMonitorTask_step false now lfsr).1 =
      LogLine.monitor now (70 + ((simple_rand (lfsrNext lfsr)).1 : Int) % 10)
        (((simple_rand lfsr).1 : Int) % 5) ∧
    (∃ heap errors : Int,
      (SystemMonitorTask_step heapFirst now lfsr).1 = LogLine.monitor now heap errors ∧
      70 ≤ heap ∧ heap ≤ 79 ∧ 0 ≤ errors ∧ errors ≤ 4) := by
  have hheap : ∀ r : Nat, add_i32 70 (Int.tmod (r : Int) 10) = 70 + (r : Int) % 10 :=
    fun r => add_i32_tmod 70 r (by norm_num) (by norm_num) (by norm_num)
  have herr : ∀ r : Nat, Int.tmod (r : Int) 5 = (r : Int) % 5 :=
    fun r => Int.tmod_eq_emod (Int.ofNat_nonneg r) (by norm_num)
  refine ⟨rfl, ?_, ?_, ?_⟩
  · simp only [SystemMonitorTask_step, hheap, herr, lfsrNext, if_true]
  · simp only [SystemMonitorTask_step, hheap, herr, lfsrNext, Bool.false_eq_true, if_false]
  · cases heapFirst
    · refine ⟨70 + ((simple_rand (lfsrNext lfsr)).1 : Int) % 10,
        ((simple_rand lfsr).1 : Int) % 5, ?_, ?_⟩
      · simp only [SystemMonitorTask_step, hheap, herr, lfsrNext, Bool.false_eq_true,
          if_false]
      · omega
    · refine ⟨70 + ((simple_rand lfsr).1 : Int) % 10,
        ((simple_rand (lfsrNext lfsr)).1 : Int) % 5, ?_, ?_⟩
      · simp only [SystemMonitorTask_step, hheap, herr, lfsrNext, if_true]
      · omega

/-! ## Statistics task: range of the running means -/

theorem meanUpdate_step_facts (B k m n x : Int) (hn : 0 ≤ n) (hm : |m| ≤ B) (hx : |x| ≤ B)
    (hk : 0 ≤ k) (hov : B * (n + (k + 1)) < 2 ^ 31) (hlen : n + (k + 1) < 2 ^ 31) :
    meanUpdate m n x = Int.tdiv (m * n + x) (n + 1) ∧ add_i32 n 1 = n + 1 ∧
    InInt32 (m * n) ∧ InInt32 (m * n + x) := by
  have hB0 : 0 ≤ B := le_trans (abs_nonneg m) hm
  have hBk : 0 ≤ B * k := mul_nonneg hB0 hk
  have hmn : |m * n| ≤ B * n := by
    rw [abs_mul, abs_of_nonneg hn]
    exact mul_le_mul_of_nonneg_right hm hn
  have hsum : |m * n + x| ≤ B * n + B := le_trans (abs_add _ _) (add_le_add hmn hx)
  have hp32 : InInt32 (m * n) := by
    obtain ⟨h1, h2⟩ := abs_le.mp hmn
    unfold InInt32
    constructor <;> linarith
  have hs32 : InInt32 (m * n + x) := by
    obtain ⟨h1, h2⟩ := abs_le.mp hsum
    unfold InInt32
    constructor <;> linarith
  exact ⟨meanUpdate_exact hn (by linarith) hp32 hs32,
    wrapInt32_eq_self (by unfold InInt32; constructor <;> linarith), hp32, hs32⟩

theorem tdiv_between (a lo hi : Int) {b : Int} (hb : 0 < b) (hlo : lo * b ≤ a) (hhi : a ≤ hi * b) :
    lo ≤ Int.tdiv a b ∧ Int.tdiv a b ≤ hi := by
  obtain ⟨hr, _, _, _⟩ := tdiv_pos_spec a hb
  obtain ⟨h1, h2⟩ := abs_lt.mp hr
  constructor
  · by_contra hc
    have hq : Int.tdiv a b + 1 ≤ lo := by omega
    have := mul_le_mul_of_nonneg_left hq (le_of_lt hb)
    nlinarith
  · by_contra hc
    have hq : hi + 1 ≤ Int.tdiv a b := by omega
    have := mul_le_mul_of_nonneg_left hq (le_of_lt hb)
    nlinarith

theorem runningMean_fold_range (lo hi B : Int) (xs : List Int) :
    ∀ m n : Int, 0 ≤ n → lo ≤ m → m ≤ hi → -B ≤ lo → hi ≤ B →
      (∀ x ∈ xs, lo ≤ x ∧ x ≤ hi) → B * (n + (xs.length : Int)) < 2 ^ 31 →
      n + (xs.length : Int) < 2 ^ 31 →
      (xs.foldl (fun mc x => (meanUpdate mc.1 mc.2 x, add_i32 mc.2 1)) (m, n)).2
          = n + (xs.length : Int) ∧
      lo ≤ (xs.foldl (fun mc x => (meanUpdate mc.1 mc.2 x, add_i32 mc.2 1)) (m, n)).1 ∧
      (xs.foldl (fun mc x => (meanUpdate mc.1 mc.2 x, add_i32 mc.2 1)) (m, n)).1 ≤ hi := by
  induction xs with
  | nil =>
    intro m n _ h1 h2 _ _ _ _ _
    simpa using ⟨h1, h2⟩
  | cons x xs ih =>
    intro m n hn hm1 hm2 hlo hhi hxs hov hlen
    rw [List.length_cons] at hov hlen ⊢
    push_cast at hov hlen ⊢
    obtain ⟨hx1, hx2⟩ := hxs x (List.mem_cons_self x xs)
    have hlen0 : (0 : Int) ≤ (xs.length : Int) := Int.ofNat_nonneg _
    obtain ⟨hmu, hcnt, _, _⟩ := meanUpdate_step_facts B (xs.length : Int) m n x hn
      (abs_le.mpr ⟨by linarith, by linarith⟩) (abs_le.mpr ⟨by linarith, by linarith⟩)
      hlen0 hov hlen
    have hpos : 0 < n + 1 := by linarith
    have hmlo : lo * n ≤ m * n := mul_le_mul_of_nonneg_right hm1 hn
    have hmhi : m * n ≤ hi * n := mul_le_mul_of_nonneg_right hm2 hn
    obtain ⟨hq1, hq2⟩ := tdiv_between (m * n + x) lo hi hpos (by linarith) (by linarith)
    have hrec := ih (Int.tdiv (m * n + x) (n + 1)) (n + 1) (by linarith) hq1 hq2 hlo hhi
      (fun y hy => hxs y (List.mem_cons_of_mem x hy))
      (by have e : B * (n + 1 + (xs.length : Int)) = B * (n + ((xs.length : Int) + 1)) := by
            ring
          rw [e]; exact hov)
      (by linarith)
    rw [List.foldl_cons]
    have e1 : n + ((xs.length : Int) + 1) = n + 1 + (xs.length : Int) := by ring
    rw [e1]
    show ((xs.foldl (fun mc x => (meanUpdate mc.1 mc.2 x, add_i32 mc.2 1))
        (meanUpdate m n x, add_i32 n 1)).2 = _) ∧ _
    rw [hmu, hcnt]
    exact hrec

theorem processAll_fold_temp (ds : List SensorData_t) :
    ∀ st : ProcessorState,
      ((processAll st ds).avgTemp, (processAll st ds).samples) =
        (ds.map (fun d => d.temp)).foldl
          (fun mc x => (meanUpdate mc.1 mc.2 x, add_i32 mc.2 1)) (st.avgTemp, st.samples) := by
  induction ds with
  | nil => intro st; rfl
  | cons d ds ih =>
    intro st
    show ((processAll (DataProcessorTask_step st d).1 ds).avgTemp,
      (processAll (DataProcessorTask_step st d).1 ds).samples) = _
    rw [ih]
    rfl

theorem processAll_fold_hum (ds : List SensorData_t) :
    ∀ st : ProcessorState,
      ((processAll st ds).avgHum, (processAll st ds).samples) =
        (ds.map (fun d => d.humidity)).foldl
          (fun mc x => (meanUpdate mc.1 mc.2 x, add_i32 mc.2 1)) (st.avgHum, st.samples) := by
  induction ds with
  | nil => intro st; rfl
  | cons d ds ih =>
    intro st
    show ((processAll (DataProcessorTask_step st d).1 ds).avgHum,
      (processAll (DataProcessorTask_step st d).1 ds).samples) = _
    rw [ih]
    rfl

theorem runningMean_range (xs : List Int) (lo hi : Int) (hne : xs ≠ [])
    (hx : ∀ x ∈ xs, lo ≤ x ∧ x ≤ hi) (hlo : |lo| * (xs.length : Int) < 2 ^ 31)
    (hhi : |hi| * (xs.length : Int) < 2 ^ 31) (hlen : (xs.length : Int) < 2 ^ 31) :
    lo ≤ (runningMean xs).1 ∧ (runningMean xs).1 ≤ hi := by
  cases xs with
  | nil => exact absurd rfl hne
  | cons x rest =>
    rw [List.length_cons] at hlo hhi hlen
    push_cast at hlo hhi hlen
    obtain ⟨hx1, hx2⟩ := hx x (List.mem_cons_self x rest)
    have hlen0 : (0 : Int) ≤ (rest.length : Int) := Int.ofNat_nonneg _
    have hBov : max |lo| |hi| * ((rest.length : Int) + 1) < 2 ^ 31 := by
      rcases max_choice |lo| |hi| with h | h
      · rw [h]; exact hlo
      · rw [h]; exact hhi
    have hB1 : -(max |lo| |hi|) ≤ lo :=
      le_trans (neg_le_neg (le_max_left _ _)) (neg_abs_le lo)
    have hB2 : hi ≤ max |lo| |hi| := le_trans (le_abs_self hi) (le_max_right _ _)
    have hxabs : |x| ≤ max |lo| |hi| := abs_le.mpr ⟨by linarith, by linarith⟩
    have hB0 : 0 ≤ max |lo| |hi| := le_trans (abs_nonneg x) hxabs
    have hfirst : meanUpdate 0 0 x = x ∧ add_i32 0 1 = 1 := by
      have hBr : 0 ≤ max |lo| |hi| * (rest.length : Int) := mul_nonneg hB0 hlen0
      have h00 : |(0 : Int)| ≤ max |lo| |hi| := by rw [abs_zero]; exact hB0
      obtain ⟨h1, h2, _, _⟩ := meanUpdate_step_facts (max |lo| |hi|) (rest.length : Int)
        0 0 x (le_refl (0 : Int)) h00 hxabs hlen0 (by linarith) (by linarith)
      constructor
      · rw [h1]; simp
      · rw [h2]; simp
    have h := runningMean_fold_range lo hi (max |lo| |hi|) rest x 1 (by norm_num) hx1 hx2
      hB1 hB2 (fun y hy => hx y (List.mem_cons_of_mem x hy))
      (by have e : max |lo| |hi| * (1 + (rest.length : Int)) =
            max |lo| |hi| * ((rest.length : Int) + 1) := by ring
          rw [e]; exact hBov)
      (by linarith)
    unfold runningMean
    rw [List.foldl_cons]
    simp only [hfirst.1, hfirst.2]
    exact ⟨h.2.1, h.2.2⟩

theorem processAll_avgTemp_eq (ds : List SensorData_t) :
    (processAll ProcessorState.init ds).avgTemp =
      (runningMean (ds.map (fun d => d.temp))).1 :=
  congrArg Prod.fst (processAll_fold_temp ds ProcessorState.init)

theorem processAll_avgHum_eq (ds : List SensorData_t) :
    (processAll ProcessorState.init ds).avgHum =
      (runningMean (ds.map (fun d => d.humidity))).1 :=
  congrArg Prod.fst (processAll_fold_hum ds ProcessorState.init)

theorem processAll_temp_bounds (ds : List SensorData_t)
    (hds : ∀ d ∈ ds, 150 ≤ d.temp ∧ d.temp < 350) (hlen : ds.length ≤ 6153248) :
    (processAll ProcessorState.init ds).samples = (ds.length : Int) ∧
    0 ≤ (processAll ProcessorState.init ds).avgTemp ∧
    (processAll ProcessorState.init ds).avgTemp ≤ 349 := by
  have hl : ((ds.map (fun d => d.temp)).length : Int) = (ds.length : Int) := by simp
  have hlen1 : (ds.length : Int) ≤ 6153248 := by exact_mod_cast hlen
  have h := runningMean_fold_range 0 349 349 (ds.map (fun d => d.temp)) 0 0 (le_refl 0)
    (le_refl 0) (by norm_num) (by norm_num) (le_refl 349)
    (by intro x hx
        obtain ⟨d, hd, rfl⟩ := List.mem_map.mp hx
        have := hds d hd
        constructor <;> omega)
    (by rw [hl]; omega) (by rw [hl]; omega)
  have hf := processAll_fold_temp ds ProcessorState.init
  have h1 : (processAll ProcessorState.init ds).avgTemp = _ := congrArg Prod.fst hf
  have h2 : (processAll ProcessorState.init ds).samples = _ := congrArg Prod.snd hf
  rw [h1, h2]
  rw [hl] at h
  refine ⟨?_, h.2.1, h.2.2⟩
  have := h.1
  simpa using this

theorem processAll_hum_bounds (ds : List SensorData_t)
    (hds : ∀ d ∈ ds, 3000 ≤ d.humidity ∧ d.humidity < 7000) (hlen : ds.length ≤ 306827) :
    (processAll ProcessorState.init ds).samples = (ds.length : Int) ∧
    0 ≤ (processAll ProcessorState.init ds).avgHum ∧
    (processAll ProcessorState.init ds).avgHum ≤ 6999 := by
  have hl : ((ds.map (fun d => d.humidity)).length : Int) = (ds.length : Int) := by simp
  have hlen1 : (ds.length : Int) ≤ 306827 := by exact_mod_cast hlen
  have h := runningMean_fold_range 0 6999 6999 (ds.map (fun d => d.humidity)) 0 0 (le_refl 0)
    (le_refl 0) (by norm_num) (by norm_num) (le_refl 6999)
    (by intro x hx
        obtain ⟨d, hd, rfl⟩ := List.mem_map.mp hx
        have := hds d hd
        constructor <;> omega)
    (by rw [hl]; omega) (by rw [hl]; omega)
  have hf := processAll_fold_hum ds ProcessorState.init
  have h1 : (processAll ProcessorState.init ds).avgHum = _ := congrArg Prod.fst hf
  have h2 : (processAll ProcessorState.init ds).samples = _ := congrArg Prod.snd hf
  rw [h1, h2]
  rw [hl] at h
  refine ⟨?_, h.2.1, h.2.2⟩
  have := h.1
  simpa using this

/-- C24, amended: when every one of the `N ≥ 1` values fed to the running-mean update
lies in [lo, hi], and `N < 2^31`, `|lo| * N < 2^31` and `|hi| * N < 2^31`, the running
mean after the last update lies in [lo, hi]; every non-empty prefix is such a
sequence, so this holds after every update.  Hence, for samples in the ranges of the
simulator, the temperature mean of `DataProcessorTask` is in [150,350) during the
first 6153248 samples and the humidity mean in [3000,7000) during the first 306827. -/
theorem running_mean_in_range (xs : List Int) (lo hi : Int) (ds : List SensorData_t)
    (hne : xs ≠ []) (hx : ∀ x ∈ xs, lo ≤ x ∧ x ≤ hi)
    (hlo : |lo| * (xs.length : Int) < 2 ^ 31) (hhi : |hi| * (xs.length : Int) < 2 ^ 31)
    (hlen : (xs.length : Int) < 2 ^ 31) :
    (lo ≤ (runningMean xs).1 ∧ (runningMean xs).1 ≤ hi) ∧
    (ds ≠ [] → (∀ d ∈ ds, 150 ≤ d.temp ∧ d.temp < 350) → ds.length ≤ 6153248 →
      150 ≤ (processAll ProcessorState.init ds).avgTemp ∧
      (processAll ProcessorState.init ds).avgTemp < 350) ∧
    (ds ≠ [] → (∀ d ∈ ds, 3000 ≤ d.humidity ∧ d.humidity < 7000) → ds.length ≤ 306827 →
      3000 ≤ (processAll ProcessorState.init ds).avgHum ∧
      (processAll ProcessorState.init ds).avgHum < 7000) := by
  refine ⟨runningMean_range xs lo hi hne hx hlo hhi hlen, ?_, ?_⟩
  · intro hds hr hl
    have hl1 : (ds.length : Int) ≤ 6153248 := by exact_mod_cast hl
    have hmap : ((ds.map (fun d => d.temp)).length : Int) = (ds.length : Int) := by simp
    have h := runningMean_range (ds.map (fun d => d.temp)) 150 349
      (by simpa using hds)
      (by intro x hx
          obtain ⟨d, hd, rfl⟩ := List.mem_map.mp hx
          have := hr d hd
          constructor <;> omega)
      (by rw [hmap, abs_of_nonneg (by norm_num)]; omega)
      (by rw [hmap, abs_of_nonneg (by norm_num)]; omega)
      (by rw [hmap]; omega)
    rw [processAll_avgTemp_eq]
    omega
  · intro hds hr hl
    have hl1 : (ds.length : Int) ≤ 306827 := by exact_mod_cast hl
    have hmap : ((ds.map (fun d => d.humidity)).length : Int) = (ds.length : Int) := by simp
    have h := runningMean_range (ds.map (fun d => d.humidity)) 3000 6999
      (by simpa using hds)
      (by intro x hx
          obtain ⟨d, hd, rfl⟩ := List.mem_map.mp hx
          have := hr d hd
          constructor <;> omega)
      (by rw [hmap, abs_of_nonneg (by norm_num)]; omega)
      (by rw [hmap, abs_of_nonneg (by norm_num)]; omega)
      (by rw [hmap]; omega)
    rw [processAll_avgHum_eq]
    omega

/-- Witness of C24: the temperatures 150, 349, 349 give a mean between 150 and 349, and
after the two samples (318, 39.84 %) and (196, 66.23 %) the means of the task are in
the ranges of the simulator. -/
theorem running_mean_in_range_witness :
    (150 ≤ (runningMean [150, 349, 349]).1 ∧ (runningMean [150, 349, 349]).1 ≤ 349) ∧
    (150 ≤ (processAll ProcessorState.init
        [{ temp := 318, humidity := 3984, light := 792, tick := 1 },
         { temp := 196, humidity := 6623, light := 643, tick := 2 }]).avgTemp ∧
      (processAll ProcessorState.init
        [{ temp := 318, humidity := 3984, light := 792, tick := 1 },
         { temp := 196, humidity := 6623, light := 643, tick := 2 }]).avgTemp < 350) := by
  have h := running_mean_in_range [150, 349, 349] 150 349
    [{ temp := 318, humidity := 3984, light := 792, tick := 1 },
     { temp := 196, humidity := 6623, light := 643, tick := 2 }]
    (by decide) (by decide) (by decide) (by decide) (by decide)
  exact ⟨h.1, h.2.1 (by decide) (by decide) (by decide)⟩

/-- C26: while fewer than 306827 samples have been processed, all of them and the next
one in the ranges of the simulator, the count held is the number of samples
processed, the values `avgTemp * samples + temp` and `avgHum * samples + humidity`
lie between 0 and 2^31 - 1, and the update gives the exact integer results
`(avg * samples + x) / (samples + 1)` and `samples + 1`.  The count 306827 is the
first for which the bound on the humidity term no longer holds. -/
theorem mean_update_no_overflow (ds : List SensorData_t) (d : SensorData_t)
    (hds : ∀ e ∈ ds, 150 ≤ e.temp ∧ e.temp < 350 ∧ 3000 ≤ e.humidity ∧ e.humidity < 7000)
    (hd : 150 ≤ d.temp ∧ d.temp < 350 ∧ 3000 ≤ d.humidity ∧ d.humidity < 7000)
    (hlen : ds.length < 306827) :
    (processAll ProcessorState.init ds).samples = (ds.length : Int) ∧
    0 ≤ (processAll ProcessorState.init ds).avgTemp *
        (processAll ProcessorState.init ds).samples + d.temp ∧
    (processAll ProcessorState.init ds).avgTemp *
        (processAll ProcessorState.init ds).samples + d.temp ≤ 2 ^ 31 - 1 ∧
    0 ≤ (processAll ProcessorState.init ds).avgHum *
        (processAll ProcessorState.init ds).samples + d.humidity ∧
    (processAll ProcessorState.init ds).avgHum *
        (processAll ProcessorState.init ds).samples + d.humidity ≤ 2 ^ 31 - 1 ∧
    (DataProcessorTask_step (processAll ProcessorState.init ds) d).1.avgTemp =
      Int.tdiv ((processAll ProcessorState.init ds).avgTemp *
        (processAll ProcessorState.init ds).samples + d.temp)
        ((processAll ProcessorState.init ds).samples + 1) ∧
    (DataProcessorTask_step (processAll ProcessorState.init ds) d).1.avgHum =
      Int.tdiv ((processAll ProcessorState.init ds).avgHum *
        (processAll ProcessorState.init ds).samples + d.humidity)
        ((processAll ProcessorState.init ds).samples + 1) ∧
    (DataProcessorTask_step (processAll ProcessorState.init ds) d).1.samples =
      (processAll ProcessorState.init ds).samples + 1 ∧
    (6999 : Int) * 306826 + 6999 ≤ 2 ^ 31 - 1 ∧ (2 : Int) ^ 31 - 1 < 6999 * 306827 + 6999 := by
  obtain ⟨hc, ht0, ht1⟩ := processAll_temp_bounds ds
    (fun e he => ⟨(hds e he).1, (hds e he).2.1⟩) (by omega)
  obtain ⟨_, hh0, hh1⟩ := processAll_hum_bounds ds
    (fun e he => ⟨(hds e he).2.2.1, (hds e he).2.2.2⟩) (by omega)
  have hn0 : (0 : Int) ≤ (ds.length : Int) := Int.ofNat_nonneg _
  have hn1 : (ds.length : Int) ≤ 306826 := by
    have : ds.length ≤ 306826 := by omega
    exact_mod_cast this
  have hT0 : 0 ≤ (processAll ProcessorState.init ds).avgTemp * (ds.length : Int) :=
    mul_nonneg ht0 hn0
  have hT1 : (processAll ProcessorState.init ds).avgTemp * (ds.length : Int) ≤
      349 * (ds.length : Int) := mul_le_mul_of_nonneg_right ht1 hn0
  have hH0 : 0 ≤ (processAll ProcessorState.init ds).avgHum * (ds.length : Int) :=
    mul_nonneg hh0 hn0
  have hH1 : (processAll ProcessorState.init ds).avgHum * (ds.length : Int) ≤
      6999 * (ds.length : Int) := mul_le_mul_of_nonneg_right hh1 hn0
  obtain ⟨hd1, hd2, hd3, hd4⟩ := hd
  rw [hc]
  have e31 : (2 : Int) ^ 31 = 2147483648 := by norm_num
  refine ⟨rfl, by linarith, by rw [e31]; linarith, by linarith, by rw [e31]; linarith,
    ?_, ?_, ?_, by norm_num, by norm_num⟩
  · show meanUpdate _ (processAll ProcessorState.init ds).samples _ = _
    rw [hc]
    exact meanUpdate_exact hn0 (by rw [e31]; linarith)
      (by unfold InInt32; rw [e31]; constructor <;> linarith)
      (by unfold InInt32; rw [e31]; constructor <;> linarith)
  · show meanUpdate _ (processAll ProcessorState.init ds).samples _ = _
    rw [hc]
    exact meanUpdate_exact hn0 (by rw [e31]; linarith)
      (by unfold InInt32; rw [e31]; constructor <;> linarith)
      (by unfold InInt32; rw [e31]; constructor <;> linarith)
  · rw [step_samples, hc]
    exact wrapInt32_eq_self (by unfold InInt32; rw [e31]; constructor <;> linarith)

/-- Witness of C26: after the sample (318, 39.84 %) the sample (196, 66.23 %) gives the
exact means (318 + 196) / 2 = 257 and (3984 + 6623) / 2 = 5303. -/
theorem mean_update_no_overflow_witness :
    (DataProcessorTask_step (processAll ProcessorState.init
        [{ temp := 318, humidity := 3984, light := 792, tick := 1 }])
        { temp := 196, humidity := 6623, light := 643, tick := 2 }).1.avgTemp = 257 ∧
    (DataProcessorTask_step (processAll ProcessorState.init
        [{ temp := 318, humidity := 3984, light := 792, tick := 1 }])
        { temp := 196, humidity := 6623, light := 643, tick := 2 }).1.avgHum = 5303 := by
  have h := mean_update_no_overflow
    [{ temp := 318, humidity := 3984, light := 792, tick := 1 }]
    { temp := 196, humidity := 6623, light := 643, tick := 2 }
    (by decide) (by decide) (by decide)
  obtain ⟨_, _, _, _, _, ht, hh, _⟩ := h
  constructor
  · rw [ht]; decide
  · rw [hh]; decide

/-! ## Queues: capacity and waiting -/

theorem exec_capacity (w : Nat) (s : SystemState) (a : Action) :
    (s.exec w a).1.xSensorQueue.uxLength = s.xSensorQueue.uxLength ∧
    (s.exec w a).1.xAlertQueue.uxLength = s.xAlertQueue.uxLength ∧
    (s.xSensorQueue.items.length ≤ s.xSensorQueue.uxLength →
      (s.exec w a).1.xSensorQueue.items.length ≤ s.xSensorQueue.uxLength) ∧
    (s.xAlertQueue.items.length ≤ s.xAlertQueue.uxLength →
      (s.exec w a).1.xAlertQueue.items.length ≤ s.xAlertQueue.uxLength) := by
  cases a <;>
    simp only [SystemState.exec, SystemState.step, SensorReaderTask_action,
      DataProcessorTask_action, AlertTask_action, DataLoggerTask_action] <;>
    (repeat' split) <;>
    simp_all [Option.getD, xQueueSend_eq_some, xQueueReceive_eq_some] <;>
    omega

theorem run_capacity (w : Nat) (sched : List Action) :
    ∀ s : SystemState,
      s.xSensorQueue.items.length ≤ s.xSensorQueue.uxLength →
      s.xAlertQueue.items.length ≤ s.xAlertQueue.uxLength →
      (SystemState.run w s sched).1.xSensorQueue.uxLength = s.xSensorQueue.uxLength ∧
      (SystemState.run w s sched).1.xAlertQueue.uxLength = s.xAlertQueue.uxLength ∧
      (SystemState.run w s sched).1.xSensorQueue.items.length ≤ s.xSensorQueue.uxLength ∧
      (SystemState.run w s sched).1.xAlertQueue.items.length ≤ s.xAlertQueue.uxLength := by
  induction sched with
  | nil => intro s h1 h2; exact ⟨rfl, rfl, h1, h2⟩
  | cons a rest ih =>
    intro s h1 h2
    obtain ⟨e1, e2, e3, e4⟩ := exec_capacity w s a
    have h := ih (s.exec w a).1 (by rw [e1]; exact e3 h1) (by rw [e2]; exact e4 h2)
    rw [e1, e2] at h
    rw [run_cons]
    exact h

theorem sentAlerts_append (e1 e2 : List Event) :
    sentAlerts (e1 ++ e2) = sentAlerts e1 ++ sentAlerts e2 := by
  simp [sentAlerts, List.filterMap_append]

theorem receivedAlerts_append (e1 e2 : List Event) :
    receivedAlerts (e1 ++ e2) = receivedAlerts e1 ++ receivedAlerts e2 := by
  simp [receivedAlerts, List.filterMap_append]

theorem exec_alert_conservation (w : Nat) (s : SystemState) (a : Action) :
    s.xAlertQueue.items ++ sentAlerts (s.exec w a).2 =
      receivedAlerts (s.exec w a).2 ++ (s.exec w a).1.xAlertQueue.items := by
  cases a <;>
    simp only [SystemState.exec, SystemState.step, SensorReaderTask_action,
      DataProcessorTask_action, AlertTask_action, DataLoggerTask_action] <;>
    (repeat' split) <;>
    simp_all [Option.getD, sentAlerts, receivedAlerts, xQueueSend_eq_some,
      xQueueReceive_eq_some]

theorem run_alert_conservation (w : Nat) (sched : List Action) :
    ∀ s : SystemState,
      s.xAlertQueue.items ++ sentAlerts (SystemState.run w s sched).2 =
        receivedAlerts (SystemState.run w s sched).2 ++
          (SystemState.run w s sched).1.xAlertQueue.items := by
  induction sched with
  | nil => intro s; simp [run_nil, sentAlerts, receivedAlerts]
  | cons a rest ih =>
    intro s
    rw [run_cons]
    simp only [sentAlerts_append, receivedAlerts_append, List.append_assoc]
    rw [← List.append_assoc, exec_alert_conservation w s a, List.append_assoc, ih]

theorem sendMany_room {α : Type} (xs : List α) :
    ∀ q : Queue α, q.items.length + xs.length ≤ q.uxLength →
      sendMany q xs = some { uxLength := q.uxLength, items := q.items ++ xs } := by
  induction xs with
  | nil => intro q _; simp [sendMany]
  | cons x rest ih =>
    intro q h
    rw [List.length_cons] at h
    have hs : xQueueSend q x = some { uxLength := q.uxLength, items := q.items ++ [x] } := by
      rw [xQueueSend_eq_some]
      exact ⟨by omega, rfl⟩
    rw [sendMany, hs]
    show sendMany { uxLength := q.uxLength, items := q.items ++ [x] } rest = _
    rw [ih _ (by simp; omega)]
    simp

theorem sendMany_append {α : Type} (xs ys : List α) :
    ∀ q : Queue α, sendMany q (xs ++ ys) = (sendMany q xs).bind fun q1 => sendMany q1 ys := by
  induction xs with
  | nil => intro q; simp [sendMany]
  | cons x rest ih =>
    intro q
    rw [List.cons_append, sendMany, sendMany]
    cases xQueueSend q x with
    | none => rfl
    | some q1 => exact ih q1

theorem xQueueSend_full {α : Type} (q : Queue α) (x : α) (h : q.uxLength ≤ q.items.length) :
    xQueueSend q x = none := by
  unfold xQueueSend
  rw [if_neg (by omega)]

/-- C22: after every schedule of the six tasks from startup the sensor queue holds at
most 10 samples, the alert queue at most 5 alerts and the command queue at most 5
commands (it is empty), and the capacities are still the lengths 10, 5 and 5 given
at creation. -/
theorem queues_within_capacity (w : Nat) (sched : List Action) :
    (SystemState.run w main_blinky sched).1.xSensorQueue.items.length ≤ 10 ∧
    (SystemState.run w main_blinky sched).1.xAlertQueue.items.length ≤ 5 ∧
    (SystemState.run w main_blinky sched).1.xCommandQueue.items.length ≤ 5 ∧
    (SystemState.run w main_blinky sched).1.xSensorQueue.uxLength = SENSOR_QUEUE_LENGTH ∧
    (SystemState.run w main_blinky sched).1.xAlertQueue.uxLength = ALERT_QUEUE_LENGTH ∧
    (SystemState.run w main_blinky sched).1.xCommandQueue.uxLength = COMMAND_QUEUE_LENGTH ∧
    SENSOR_QUEUE_LENGTH = 10 ∧ ALERT_QUEUE_LENGTH = 5 ∧ COMMAND_QUEUE_LENGTH = 5 := by
  obtain ⟨h1, h2, h3, h4⟩ := run_capacity w sched main_blinky (by decide) (by decide)
  have hc := run_xCommandQueue w sched main_blinky
  refine ⟨h3, h4, ?_, h1, h2, ?_, rfl, rfl, rfl⟩
  · rw [hc]; decide
  · rw [hc]; rfl

theorem exec_sensor_held (w : Nat) (s : SystemState) :
    (∀ d, s.sensorData = some d → s.xSensorQueue.items.length < s.xSensorQueue.uxLength →
      sentSamples (s.exec w Action.SensorReaderTask).2 = [d]) ∧
    (s.sensorData = none → s.xSensorQueue.uxLength ≤ s.xSensorQueue.items.length →
      (s.exec w Action.SensorReaderTask).1.sensorData =
        some (readSensor s.sensorTick s.lfsr).1 ∧
      (s.exec w Action.SensorReaderTask).2 = []) ∧
    (∀ d, s.sensorData = some d → s.xSensorQueue.uxLength ≤ s.xSensorQueue.items.length →
      s.exec w Action.SensorReaderTask = (s, [])) := by
  refine ⟨?_, ?_, ?_⟩
  · intro d hd hroom
    simp only [SystemState.exec, SystemState.step, SensorReaderTask_action, hd]
    have hs : xQueueSend s.xSensorQueue d =
        some { uxLength := s.xSensorQueue.uxLength, items := s.xSensorQueue.items ++ [d] } := by
      rw [xQueueSend_eq_some]; exact ⟨hroom, rfl⟩
    simp [hs, Option.getD, sentSamples]
  · intro hd hfull
    simp only [SystemState.exec, SystemState.step, SensorReaderTask_action, hd]
    simp [xQueueSend_full _ _ hfull, Option.getD]
  · intro d hd hfull
    simp only [SystemState.exec, SystemState.step, SensorReaderTask_action, hd]
    simp [xQueueSend_full _ _ hfull, Option.getD]

theorem exec_processor_held (w : Nat) (s : SystemState) (a : AlertData_t) (d : SensorData_t)
    (hp : s.processorAlert = some (a, d)) :
    (s.xAlertQueue.items.length < s.xAlertQueue.uxLength →
      sentAlerts (s.exec w Action.DataProcessorTask).2 = [a]) ∧
    (s.xAlertQueue.uxLength ≤ s.xAlertQueue.items.length →
      s.exec w Action.DataProcessorTask = (s, [])) := by
  constructor
  · intro hroom
    simp only [SystemState.exec, SystemState.step, DataProcessorTask_action, hp]
    have hs : xQueueSend s.xAlertQueue a =
        some { uxLength := s.xAlertQueue.uxLength, items := s.xAlertQueue.items ++ [a] } := by
      rw [xQueueSend_eq_some]; exact ⟨hroom, rfl⟩
    simp [hs, Option.getD, sentAlerts]
  · intro hfull
    simp only [SystemState.exec, SystemState.step, DataProcessorTask_action, hp]
    simp [xQueueSend_full _ _ hfull, Option.getD]

/-! ## Counters and sums at the end of their range -/

/-- C12, as stated, fails at the dispatch number 4294967296: the 32-bit counter has
wrapped, the command has id 0 and name STATUS, while the entry 4294967296 mod 3 of
the command table is READ_SENSORS. -/
theorem command_cycle_counterexample :
    (commandAt 4294967296).cmd_id = 0 ∧
    (commandAt 4294967296).cmd_id ≠ 4294967296 ∧
    (commandAt 4294967296).command = cbytes "STATUS" ∧
    commands.getD (4294967296 % 3) "" = "READ_SENSORS" ∧
    (commandAt 4294967296).command ≠ cbytes (commands.getD (4294967296 % 3) "") := by
  have hid : cmdIdAt 4294967296 = 0 := by rw [cmdIdAt_eq_mod]; norm_num
  have hcmd : commandAt 4294967296 = { command := cbytes "STATUS", cmd_id := 0 } := by
    unfold commandAt
    rw [step_command, hid]
    decide
  rw [hcmd]
  decide

theorem wrapInt32_add_wrap (p x : Int) : wrapInt32 (wrapInt32 p + x) = wrapInt32 (p + x) := by
  unfold wrapInt32
  omega

theorem wrapInt32_sub_two_pow {a : Int} (h0 : 2 ^ 31 ≤ a) (h1 : a < 2 ^ 32 + 2 ^ 31) :
    wrapInt32 a = a - 2 ^ 32 := by
  unfold wrapInt32
  omega

theorem meanUpdate_overflow {m n x : Int} (hn1 : n ≤ 715827)
    (ha0 : 2 ^ 31 ≤ m * n + x) (ha1 : m * n + x ≤ 6999 * (n + 1)) :
    meanUpdate m n x < 3000 := by
  have e31 : (2 : Int) ^ 31 = 2147483648 := by norm_num
  have e32 : (2 : Int) ^ 32 = 4294967296 := by norm_num
  have hc : add_i32 n 1 = n + 1 :=
    wrapInt32_eq_self (by unfold InInt32; rw [e31]; constructor <;> linarith)
  have hw : add_i32 (mul_i32 m n) x = m * n + x - 2 ^ 32 := by
    unfold add_i32 mul_i32
    rw [wrapInt32_add_wrap]
    exact wrapInt32_sub_two_pow ha0 (by rw [e31, e32]; linarith)
  have hpos : 0 < n + 1 := by linarith
  have h32 : InInt32 (m * n + x - 2 ^ 32) := by
    unfold InInt32; rw [e31, e32]; rw [e31] at ha0; constructor <;> linarith
  obtain ⟨_, hq⟩ := tdiv_between (m * n + x - 2 ^ 32) (-2 ^ 31) 2999 hpos
    (by rw [e31, e32]; rw [e31] at ha0; linarith) (by rw [e32]; linarith)
  unfold meanUpdate div_i32
  rw [hw, hc, wrapInt32_eq_self (tdiv_inInt32 h32 hpos)]
  linarith

theorem hum_mean_overflows (ds : List SensorData_t) :
    ∀ st : ProcessorState, 0 ≤ st.samples → st.samples ≤ 715827 → 0 ≤ st.avgHum →
      st.avgHum ≤ 6999 → (1 ≤ st.samples → 3000 ≤ st.avgHum) →
      (∀ d ∈ ds, 3000 ≤ d.humidity ∧ d.humidity < 7000) →
      715828 ≤ st.samples + (ds.length : Int) →
      ∃ pre d post, ds = pre ++ d :: post ∧
        (processAll st pre).samples = st.samples + (pre.length : Int) ∧
        (DataProcessorTask_step (processAll st pre) d).1.avgHum < 3000 ∧
        3000 ≤ Int.tdiv ((processAll st pre).avgHum * (processAll st pre).samples + d.humidity)
          ((processAll st pre).samples + 1) := by
  induction ds with
  | nil =>
    intro st _ h1 _ _ _ _ hlen
    simp only [List.length_nil, Nat.cast_zero, add_zero] at hlen
    omega
  | cons d rest ih =>
    intro st hn0 hn1 hm0 hm1 hm3 hds hlen
    obtain ⟨hx0, hx1⟩ := hds d (List.mem_cons_self d rest)
    have e31 : (2 : Int) ^ 31 = 2147483648 := by norm_num
    have hpos : 0 < st.samples + 1 := by linarith
    have hmn0 : 0 ≤ st.avgHum * st.samples := mul_nonneg hm0 hn0
    have hmn1 : st.avgHum * st.samples ≤ 6999 * st.samples :=
      mul_le_mul_of_nonneg_right hm1 hn0
    have hlow : 3000 * (st.samples + 1) ≤ st.avgHum * st.samples + d.humidity := by
      rcases eq_or_lt_of_le hn0 with h0 | h0
      · rw [← h0]; simp; linarith
      · have h3 : 3000 ≤ st.avgHum := hm3 (by omega)
        have := mul_le_mul_of_nonneg_right h3 hn0
        linarith
    obtain ⟨hF0, hF1⟩ := tdiv_between (st.avgHum * st.samples + d.humidity) 3000 6999 hpos
      hlow (by linarith)
    by_cases hov : st.avgHum * st.samples + d.humidity < 2 ^ 31
    · have hexact : (DataProcessorTask_step st d).1.avgHum =
          Int.tdiv (st.avgHum * st.samples + d.humidity) (st.samples + 1) :=
        meanUpdate_exact hn0 (by rw [e31]; linarith)
          (by unfold InInt32; rw [e31]; rw [e31] at hov; constructor <;> linarith)
          (by unfold InInt32; rw [e31]; rw [e31] at hov; constructor <;> linarith)
      have hcnt : (DataProcessorTask_step st d).1.samples = st.samples + 1 := by
        rw [step_samples]
        exact wrapInt32_eq_self (by unfold InInt32; rw [e31]; constructor <;> linarith)
      have hsmall : st.samples + 1 ≤ 715827 := by rw [e31] at hov; omega
      rw [List.length_cons] at hlen
      push_cast at hlen
      obtain ⟨pre, e, post, hsplit, hs, hlt, hge⟩ := ih (DataProcessorTask_step st d).1
        (by rw [hcnt]; linarith) (by rw [hcnt]; exact hsmall) (by rw [hexact]; linarith)
        (by rw [hexact]; exact hF1) (fun _ => by rw [hexact]; exact hF0)
        (fun y hy => hds y (List.mem_cons_of_mem d hy)) (by rw [hcnt]; linarith)
      refine ⟨d :: pre, e, post, by rw [hsplit]; rfl, ?_, hlt, hge⟩
      show (processAll (DataProcessorTask_step st d).1 pre).samples = _
      rw [hs, hcnt, List.length_cons]
      push_cast
      ring
    · refine ⟨[], d, rest, rfl, by simp [processAll], ?_, hF0⟩
      show meanUpdate st.avgHum st.samples d.humidity < 3000
      exact meanUpdate_overflow hn1 (not_lt.mp hov) (by linarith)

theorem readSensor_hum_range (tick lfsr : Nat) :
    3000 ≤ (readSensor tick lfsr).1.humidity ∧ (readSensor tick lfsr).1.humidity < 7000 := by
  simp only [readSensor]
  rw [add_i32_tmod 3000 _ (by norm_num) (by norm_num) (by norm_num)]
  omega

theorem sensorStream_hum_range (w n : Nat) :
    ∀ tick lfsr : Nat, ∀ d ∈ sensorStream w n tick lfsr,
      3000 ≤ d.humidity ∧ d.humidity < 7000 := by
  induction n with
  | zero => intro tick lfsr d hd; simp [sensorStream] at hd
  | succ n ih =>
    intro tick lfsr d hd
    simp only [sensorStream, List.mem_cons] at hd
    rcases hd with rfl | hd
    · exact readSensor_hum_range tick lfsr
    · exact ih _ _ d hd

theorem sensorStream_length (w n : Nat) :
    ∀ tick lfsr : Nat, (sensorStream w n tick lfsr).length = n := by
  induction n with
  | zero => intro tick lfsr; rfl
  | succ n ih => intro tick lfsr; rw [sensorStream, List.length_cons, ih]

theorem seeded_hum_mean_overflows :
    ∃ pre d post, sensorStream 32 715828 1 lfsrSeed = pre ++ d :: post ∧
      (processAll ProcessorState.init pre).samples = (pre.length : Int) ∧
      (DataProcessorTask_step (processAll ProcessorState.init pre) d).1.avgHum < 3000 ∧
      3000 ≤ Int.tdiv ((processAll ProcessorState.init pre).avgHum *
          (processAll ProcessorState.init pre).samples + d.humidity)
        ((processAll ProcessorState.init pre).samples + 1) := by
  have hlen : ((sensorStream 32 715828 1 lfsrSeed).length : Int) = 715828 := by
    rw [sensorStream_length]; rfl
  obtain ⟨pre, d, post, h1, h2, h3, h4⟩ :=
    hum_mean_overflows (sensorStream 32 715828 1 lfsrSeed) ProcessorState.init
      (le_refl 0) (by decide) (le_refl 0) (by decide) (fun h => absurd h (by decide))
      (sensorStream_hum_range 32 715828 1 lfsrSeed)
      (by rw [hlen]; decide)
  refine ⟨pre, d, post, h1, ?_, h3, h4⟩
  rw [h2]
  show (0 : Int) + _ = _
  rw [zero_add]

/-- C9, as stated, fails once the sum `mean * n + x` leaves the 32-bit `int`.  After one
sample of humidity 2147483647 (mean 2147483647, count 1) a second such sample gives
the mean -1, where `(mean * n + x) / (n + 1)` is 2147483647.  And among the first 715828
samples that the sensor task produces from the seed there is one at which the update
of the humidity mean differs from `(mean * n + x) / (n + 1)` truncated, `n` being the
number of samples processed before. -/
theorem running_mean_step_counterexample :
    (processAll ProcessorState.init
      [{ temp := 200, humidity := 2147483647, light := 500, tick := 1 }]).avgHum = 2147483647 ∧
    (processAll ProcessorState.init
      [{ temp := 200, humidity := 2147483647, light := 500, tick := 1 }]).samples = 1 ∧
    (DataProcessorTask_step (processAll ProcessorState.init
        [{ temp := 200, humidity := 2147483647, light := 500, tick := 1 }])
      { temp := 200, humidity := 2147483647, light := 500, tick := 2 }).1.avgHum = -1 ∧
    Int.tdiv (2147483647 * 1 + 2147483647) (1 + 1) = 2147483647 ∧
    ∃ pre d post, sensorStream 32 715828 1 lfsrSeed = pre ++ d :: post ∧
      (processAll ProcessorState.init pre).samples = (pre.length : Int) ∧
      (DataProcessorTask_step (processAll ProcessorState.init pre) d).1.avgHum ≠
        Int.tdiv ((processAll ProcessorState.init pre).avgHum * (pre.length : Int) + d.humidity)
          ((pre.length : Int) + 1) := by
  refine ⟨by decide!, by decide!, by decide!, by decide!, ?_⟩
  obtain ⟨pre, d, post, h1, h2, h3, h4⟩ := seeded_hum_mean_overflows
  rw [h2] at h4
  exact ⟨pre, d, post, h1, h2, by omega⟩

/-- C24, as stated, fails once the sum of the update leaves the 32-bit `int`.  The two
values 2147483647, 2147483647 lie in [2147483647, 2147483647] and their running mean
is -1.  And the samples that the sensor task produces from the seed all have a
humidity in [3000,7000), yet after one of the first 715828 of them the humidity mean
of `DataProcessorTask` is below 3000. -/
theorem running_mean_in_range_counterexample :
    runningMean [2147483647, 2147483647] = (-1, 2) ∧
    (∀ d ∈ sensorStream 32 715828 1 lfsrSeed, 3000 ≤ d.humidity ∧ d.humidity < 7000) ∧
    ∃ pre d post, sensorStream 32 715828 1 lfsrSeed = pre ++ d :: post ∧
      (processAll ProcessorState.init (pre ++ [d])).samples = (pre.length : Int) + 1 ∧
      (processAll ProcessorState.init (pre ++ [d])).avgHum < 3000 := by
  refine ⟨by decide!, sensorStream_hum_range 32 715828 1 lfsrSeed, ?_⟩
  obtain ⟨pre, d, post, h1, h2, h3, _⟩ := seeded_hum_mean_overflows
  refine ⟨pre, d, post, h1, ?_, ?_⟩
  · rw [processAll_append, step_samples, h2]
    have hl : (pre.length : Int) < 715828 := by
      have := congrArg List.length h1
      rw [sensorStream_length, List.length_append, List.length_cons] at this
      omega
    exact wrapInt32_eq_self (by unfold InInt32; constructor <;> omega)
  · rw [processAll_append]
    exact h3

/-! ## Sensor task: the sequence number at the end of its range -/

theorem processAlerts_append (xs : List SensorData_t) :
    ∀ (st : ProcessorState) (ys : List SensorData_t),
      processAlerts st (xs ++ ys) = processAlerts st xs ++ processAlerts (processAll st xs) ys := by
  induction xs with
  | nil => intro st ys; rfl
  | cons d rest ih =>
    intro st ys
    show (DataProcessorTask_step st d).2 ++ processAlerts _ (rest ++ ys) = _
    rw [ih]
    show _ = ((DataProcessorTask_step st d).2 ++ processAlerts _ rest) ++ _
    rw [List.append_assoc]
    rfl

theorem processAll_concat (xs ys : List SensorData_t) (st : ProcessorState) :
    processAll st (xs ++ ys) = processAll (processAll st xs) ys := by
  unfold processAll
  rw [List.foldl_append]

theorem processorReceived_append (e1 e2 : List Event) :
    processorReceived (e1 ++ e2) = processorReceived e1 ++ processorReceived e2 := by
  simp [processorReceived, List.filterMap_append]

theorem step_alerts_tail (st : ProcessorState) (d : SensorData_t) (a : AlertData_t)
    (rest : List AlertData_t) (h : (DataProcessorTask_step st d).2 = a :: rest) : rest = [] := by
  rw [step_alerts] at h
  split at h
  · cases h; rfl
  · cases h

theorem exec_alerts_due (w : Nat) (s : SystemState) (a : Action) :
    heldAlert s ++ processAlerts (processorLocals s) (processorReceived (s.exec w a).2) =
      sentAlerts (s.exec w a).2 ++ heldAlert (s.exec w a).1 ∧
    processorLocals (s.exec w a).1 =
      processAll (processorLocals s) (processorReceived (s.exec w a).2) := by
  cases a with
  | DataProcessorTask =>
    simp only [SystemState.exec, SystemState.step, DataProcessorTask_action]
    split
    · next al d hp =>
      split
      · simp [Option.getD, heldAlert, processorLocals, hp, processorReceived, sentAlerts,
          processAlerts, processAll]
      · simp [Option.getD, heldAlert, processorLocals, hp, processorReceived, sentAlerts,
          processAlerts, processAll]
    · next hp =>
      split
      · simp [Option.getD, heldAlert, processorLocals, hp, processorReceived, sentAlerts,
          processAlerts, processAll]
      · next d q hq =>
        split
        · next hr =>
          simp [Option.getD, heldAlert, processorLocals, hp, processorReceived, sentAlerts,
            processAlerts, processAll, hr]
        · next al tl hr =>
          have htl := step_alerts_tail _ _ _ _ hr
          subst htl
          split
          · simp [Option.getD, heldAlert, processorLocals, hp, processorReceived, sentAlerts,
              processAlerts, processAll, hr]
          · simp [Option.getD, heldAlert, processorLocals, hp, processorReceived, sentAlerts,
              processAlerts, processAll, hr]
            rfl
  | SensorReaderTask =>
    simp only [SystemState.exec, SystemState.step, SensorReaderTask_action]
    (repeat' split) <;>
      simp_all [Option.getD, heldAlert, processorLocals, processorReceived, sentAlerts,
        processAlerts, processAll]
  | SystemMonitorTask now hf =>
    simp [SystemState.exec, SystemState.step, Option.getD, heldAlert, processorLocals,
      processorReceived, sentAlerts, processAlerts, processAll]
  | CommandHandlerTask now =>
    simp [SystemState.exec, SystemState.step, Option.getD, heldAlert, processorLocals,
      processorReceived, sentAlerts, processAlerts, processAll]
  | DataLoggerTask =>
    simp only [SystemState.exec, SystemState.step, DataLoggerTask_action]
    (repeat' split) <;>
      simp_all [Option.getD, heldAlert, processorLocals, processorReceived, sentAlerts,
        processAlerts, processAll]
  | AlertTask =>
    simp only [SystemState.exec, SystemState.step, AlertTask_action]
    (repeat' split) <;>
      simp_all [Option.getD, heldAlert, processorLocals, processorReceived, sentAlerts,
        processAlerts, processAll]

theorem run_alerts_due (w : Nat) (sched : List Action) :
    ∀ s : SystemState,
      heldAlert s ++
          processAlerts (processorLocals s) (processorReceived (SystemState.run w s sched).2) =
        sentAlerts (SystemState.run w s sched).2 ++ heldAlert (SystemState.run w s sched).1 ∧
      processorLocals (SystemState.run w s sched).1 =
        processAll (processorLocals s) (processorReceived (SystemState.run w s sched).2) := by
  induction sched with
  | nil => intro s; simp [run_nil, processorReceived, sentAlerts, processAlerts, processAll]
  | cons a rest ih =>
    intro s
    obtain ⟨h1, h2⟩ := exec_alerts_due w s a
    obtain ⟨k1, k2⟩ := ih (s.exec w a).1
    rw [run_cons]
    simp only [processorReceived_append, sentAlerts_append, processAlerts_append,
      processAll_concat]
    rw [h2] at k1 k2
    refine ⟨?_, k2⟩
    rw [← List.append_assoc, h1, List.append_assoc, k1, List.append_assoc]

theorem xQueueSend_room {α : Type} (q : Queue α) (x : α) (h : q.items.length < q.uxLength) :
    xQueueSend q x = some { uxLength := q.uxLength, items := q.items ++ [x] } := by
  rw [xQueueSend_eq_some]
  exact ⟨h, rfl⟩

theorem xQueueSend_eq_none {α : Type} (q : Queue α) (x : α) :
    xQueueSend q x = none ↔ q.uxLength ≤ q.items.length := by
  unfold xQueueSend
  split
  · next h => simp; omega
  · next h => simp; omega

theorem xQueueReceive_cons {α : Type} (q : Queue α) (x : α) (rest : List α)
    (h : q.items = x :: rest) :
    xQueueReceive q = some (x, { uxLength := q.uxLength, items := rest }) := by
  rw [xQueueReceive_eq_some]
  exact ⟨h, rfl⟩

theorem exec_sensor_room (w : Nat) (s : SystemState)
    (hroom : s.xSensorQueue.items.length < s.xSensorQueue.uxLength) :
    (s.sensorData = none →
      sentSamples (s.exec w Action.SensorReaderTask).2 = [(readSensor s.sensorTick s.lfsr).1] ∧
      (s.exec w Action.SensorReaderTask).1.xSensorQueue.items =
        s.xSensorQueue.items ++ [(readSensor s.sensorTick s.lfsr).1] ∧
      (s.exec w Action.SensorReaderTask).1.sensorData = none) ∧
    (∀ d, s.sensorData = some d →
      (s.exec w Action.SensorReaderTask).1.xSensorQueue.items = s.xSensorQueue.items ++ [d] ∧
      (s.exec w Action.SensorReaderTask).1.sensorData = none) := by
  constructor
  · intro hd
    simp only [SystemState.exec, SystemState.step, SensorReaderTask_action, hd,
      xQueueSend_room _ _ hroom]
    simp [Option.getD, sentSamples]
  · intro d hd
    simp only [SystemState.exec, SystemState.step, SensorReaderTask_action, hd,
      xQueueSend_room _ _ hroom]
    simp [Option.getD]

theorem exec_alert_receive (w : Nat) (s : SystemState) (al : AlertData_t)
    (rest : List AlertData_t) (h : s.xAlertQueue.items = al :: rest) :
    (s.exec w Action.AlertTask).1.xAlertQueue.items = rest ∧
    (s.exec w Action.AlertTask).2 = [Event.alertReceive al, Event.print (LogLine.alert al)] := by
  simp only [SystemState.exec, SystemState.step, AlertTask_action, xQueueReceive_cons _ _ _ h]
  simp [Option.getD]

theorem exec_processor_alert (w : Nat) (s : SystemState) (d : SensorData_t)
    (rest : List SensorData_t) (al : AlertData_t) (hp : s.processorAlert = none)
    (h : s.xSensorQueue.items = d :: rest)
    (hal : (DataProcessorTask_step s.processor d).2 = [al]) :
    (s.xAlertQueue.items.length < s.xAlertQueue.uxLength →
      sentAlerts (s.exec w Action.DataProcessorTask).2 = [al] ∧
      (s.exec w Action.DataProcessorTask).1.xAlertQueue.items = s.xAlertQueue.items ++ [al] ∧
      (s.exec w Action.DataProcessorTask).1.processorAlert = none) ∧
    (s.xAlertQueue.uxLength ≤ s.xAlertQueue.items.length →
      sentAlerts (s.exec w Action.DataProcessorTask).2 = [] ∧
      (s.exec w Action.DataProcessorTask).1.xAlertQueue = s.xAlertQueue ∧
      (s.exec w Action.DataProcessorTask).1.processorAlert = some (al, d)) := by
  constructor
  · intro hroom
    simp only [SystemState.exec, SystemState.step, DataProcessorTask_action, hp,
      xQueueReceive_cons _ _ _ h, hal, xQueueSend_room _ _ hroom]
    simp [Option.getD, sentAlerts, hp]
  · intro hfull
    simp only [SystemState.exec, SystemState.step, DataProcessorTask_action, hp,
      xQueueReceive_cons _ _ _ h, hal, xQueueSend_full _ _ hfull]
    simp [Option.getD, sentAlerts]

theorem exec_processor_held_room (w : Nat) (s : SystemState) (al : AlertData_t)
    (d : SensorData_t) (hp : s.processorAlert = some (al, d))
    (hroom : s.xAlertQueue.items.length < s.xAlertQueue.uxLength) :
    (s.exec w Action.DataProcessorTask).1.xAlertQueue.items = s.xAlertQueue.items ++ [al] ∧
    (s.exec w Action.DataProcessorTask).1.processorAlert = none := by
  simp only [SystemState.exec, SystemState.step, DataProcessorTask_action, hp,
    xQueueSend_room _ _ hroom]
  simp [Option.getD]

theorem step_none_iff (w : Nat) (s : SystemState) (a : Action) :
    s.step w a = none ↔
      (a = Action.SensorReaderTask ∧ s.sensorData ≠ none ∧
        s.xSensorQueue.uxLength ≤ s.xSensorQueue.items.length) ∨
      (a = Action.DataProcessorTask ∧ s.processorAlert ≠ none ∧
        s.xAlertQueue.uxLength ≤ s.xAlertQueue.items.length) ∨
      (a = Action.DataProcessorTask ∧ s.processorAlert = none ∧ s.xSensorQueue.items = []) ∨
      (a = Action.DataLoggerTask ∧ s.xSensorQueue.items = []) ∨
      (a = Action.AlertTask ∧ s.xAlertQueue.items = []) := by
  cases a with
  | SensorReaderTask =>
    simp only [SystemState.step, SensorReaderTask_action]
    (repeat' split) <;> simp_all [xQueueSend_eq_none, xQueueSend_eq_some]
  | DataProcessorTask =>
    simp only [SystemState.step, DataProcessorTask_action]
    (repeat' split) <;>
      simp_all [xQueueSend_eq_none, xQueueSend_eq_some, xQueueReceive_none,
        xQueueReceive_eq_some]
  | SystemMonitorTask now hf => simp [SystemState.step]
  | CommandHandlerTask now => simp [SystemState.step]
  | DataLoggerTask =>
    simp only [SystemState.step, DataLoggerTask_action]
    (repeat' split) <;> simp_all [xQueueReceive_none, xQueueReceive_eq_some]
  | AlertTask =>
    simp only [SystemState.step, AlertTask_action]
    (repeat' split) <;> simp_all [xQueueReceive_none, xQueueReceive_eq_some]

/-- C23: in the queue of capacity `N`, `N` sends into the empty queue go through and the
next send has to wait; it goes through once a receive has taken the oldest item.  A
receive from the empty queue has to wait and goes through after a send.  In the
tasks, an operation that has to wait changes nothing, the sensor task and the
statistics task keep the item of a waiting send and send that very item once there
is room, and after every schedule the items sent to the sensor queue and to the alert
queue are the items received followed by the items still queued: none is dropped.
Every alert due for the samples that the statistics task has received is sent or is
the one the task is waiting with, and without monitor actions the samples sent are
the first samples of the stream of the sensor task, none left out.  A task stays
suspended exactly when it is in a send to a full queue or in a receive from an empty
queue.  With room, the sensor task sends the sample read or held; a receive of the
logger, of the statistics task or of the alert task takes the oldest item, and the
alert task prints it; a new alert is sent when there is room and is kept otherwise,
and an alert kept is sent once there is room. -/
theorem queue_waits_when_full {α : Type} (N : Nat) (xs : List α) (x : α) (w : Nat)
    (sched : List Action) (s : SystemState) (a : Action) (hN : xs.length = N) :
    sendMany (xQueueCreateStatic N) xs = some { uxLength := N, items := xs } ∧
    sendMany (xQueueCreateStatic N) (xs ++ [x]) = none ∧
    (∀ y rest, xs = y :: rest →
      xQueueReceive { uxLength := N, items := xs } = some (y, { uxLength := N, items := rest }) ∧
      xQueueSend { uxLength := N, items := rest } x =
        some { uxLength := N, items := rest ++ [x] }) ∧
    xQueueReceive (xQueueCreateStatic N : Queue α) = none ∧
    (0 < N →
      (xQueueSend (xQueueCreateStatic N) x).bind xQueueReceive =
        some (x, xQueueCreateStatic N)) ∧
    (s.step w a = none → s.exec w a = (s, [])) ∧
    (∀ d, s.sensorData = some d → s.xSensorQueue.items.length < s.xSensorQueue.uxLength →
      sentSamples (s.exec w Action.SensorReaderTask).2 = [d]) ∧
    (∀ d, s.sensorData = some d → s.xSensorQueue.uxLength ≤ s.xSensorQueue.items.length →
      s.exec w Action.SensorReaderTask = (s, [])) ∧
    (s.sensorData = none → s.xSensorQueue.uxLength ≤ s.xSensorQueue.items.length →
      (s.exec w Action.SensorReaderTask).1.sensorData =
        some (readSensor s.sensorTick s.lfsr).1 ∧
      (s.exec w Action.SensorReaderTask).2 = []) ∧
    (∀ al d, s.processorAlert = some (al, d) →
      (s.xAlertQueue.items.length < s.xAlertQueue.uxLength →
        sentAlerts (s.exec w Action.DataProcessorTask).2 = [al]) ∧
      (s.xAlertQueue.uxLength ≤ s.xAlertQueue.items.length →
        s.exec w Action.DataProcessorTask = (s, []))) ∧
    sentSamples (SystemState.run w main_blinky sched).2 =
      (receivedSamples (SystemState.run w main_blinky sched).2).map Prod.snd ++
        (SystemState.run w main_blinky sched).1.xSensorQueue.items ∧
    sentAlerts (SystemState.run w main_blinky sched).2 =
      receivedAlerts (SystemState.run w main_blinky sched).2 ++
        (SystemState.run w main_blinky sched).1.xAlertQueue.items ∧
    processAlerts ProcessorState.init
        (processorReceived (SystemState.run w main_blinky sched).2) =
      sentAlerts (SystemState.run w main_blinky sched).2 ++
        heldAlert (SystemState.run w main_blinky sched).1 ∧
    ((∀ b ∈ sched, b.task ≠ TaskId.SystemMonitorTask) →
      sentSamples (SystemState.run w main_blinky sched).2 <+:
        sensorStream w sched.length 1 lfsrSeed) ∧
    (s.step w a = none ↔
      (a = Action.SensorReaderTask ∧ s.sensorData ≠ none ∧
        s.xSensorQueue.uxLength ≤ s.xSensorQueue.items.length) ∨
      (a = Action.DataProcessorTask ∧ s.processorAlert ≠ none ∧
        s.xAlertQueue.uxLength ≤ s.xAlertQueue.items.length) ∨
      (a = Action.DataProcessorTask ∧ s.processorAlert = none ∧ s.xSensorQueue.items = []) ∨
      (a = Action.DataLoggerTask ∧ s.xSensorQueue.items = []) ∨
      (a = Action.AlertTask ∧ s.xAlertQueue.items = [])) ∧
    (s.xSensorQueue.items.length < s.xSensorQueue.uxLength →
      (s.sensorData = none →
        sentSamples (s.exec w Action.SensorReaderTask).2 =
          [(readSensor s.sensorTick s.lfsr).1] ∧
        (s.exec w Action.SensorReaderTask).1.xSensorQueue.items =
          s.xSensorQueue.items ++ [(readSensor s.sensorTick s.lfsr).1] ∧
        (s.exec w Action.SensorReaderTask).1.sensorData = none) ∧
      (∀ d, s.sensorData = some d →
        (s.exec w Action.SensorReaderTask).1.xSensorQueue.items = s.xSensorQueue.items ++ [d] ∧
        (s.exec w Action.SensorReaderTask).1.sensorData = none)) ∧
    (∀ d rest, s.xSensorQueue.items = d :: rest →
      ((s.exec w Action.DataLoggerTask).1.xSensorQueue.items = rest ∧
        receivedSamples (s.exec w Action.DataLoggerTask).2 = [(TaskId.DataLoggerTask, d)]) ∧
      (s.processorAlert = none →
        (s.exec w Action.DataProcessorTask).1.xSensorQueue.items = rest ∧
        receivedSamples (s.exec w Action.DataProcessorTask).2 =
          [(TaskId.DataProcessorTask, d)]) ∧
      (∀ al, s.processorAlert = none → (DataProcessorTask_step s.processor d).2 = [al] →
        (s.xAlertQueue.items.length < s.xAlertQueue.uxLength →
          sentAlerts (s.exec w Action.DataProcessorTask).2 = [al] ∧
          (s.exec w Action.DataProcessorTask).1.xAlertQueue.items =
            s.xAlertQueue.items ++ [al] ∧
          (s.exec w Action.DataProcessorTask).1.processorAlert = none) ∧
        (s.xAlertQueue.uxLength ≤ s.xAlertQueue.items.length →
          sentAlerts (s.exec w Action.DataProcessorTask).2 = [] ∧
          (s.exec w Action.DataProcessorTask).1.xAlertQueue = s.xAlertQueue ∧
          (s.exec w Action.DataProcessorTask).1.processorAlert = some (al, d)))) ∧
    (∀ al d, s.processorAlert = some (al, d) →
      s.xAlertQueue.items.length < s.xAlertQueue.uxLength →
      (s.exec w Action.DataProcessorTask).1.xAlertQueue.items = s.xAlertQueue.items ++ [al] ∧
      (s.exec w Action.DataProcessorTask).1.processorAlert = none) ∧
    (∀ al rest, s.xAlertQueue.items = al :: rest →
      (s.exec w Action.AlertTask).1.xAlertQueue.items = rest ∧
      (s.exec w Action.AlertTask).2 =
        [Event.alertReceive al, Event.print (LogLine.alert al)]) := by
  have hfill : sendMany (xQueueCreateStatic N) xs = some { uxLength := N, items := xs } := by
    have h := sendMany_room xs (xQueueCreateStatic N) (by simp [xQueueCreateStatic, hN])
    simpa [xQueueCreateStatic] using h
  have hsens := run_sensor_conservation w sched main_blinky
  have halert := run_alert_conservation w sched main_blinky
  have he1 : main_blinky.xSensorQueue.items = [] := rfl
  have he2 : main_blinky.xAlertQueue.items = [] := rfl
  rw [he1, List.nil_append] at hsens
  rw [he2, List.nil_append] at halert
  obtain ⟨hs1, hs2, hs3⟩ := exec_sensor_held w s
  have hdue := (run_alerts_due w sched main_blinky).1
  have hl0 : heldAlert main_blinky = [] := rfl
  have hl1 : processorLocals main_blinky = ProcessorState.init := rfl
  rw [hl0, hl1, List.nil_append] at hdue
  have hpre : (∀ b ∈ sched, b.task ≠ TaskId.SystemMonitorTask) →
      sentSamples (SystemState.run w main_blinky sched).2 <+:
        sensorStream w sched.length 1 lfsrSeed :=
    fun hb => run_sent_prefix w sched main_blinky hb
  refine ⟨hfill, ?_, ?_, rfl, ?_, ?_, hs1, hs3, hs2,
    fun al d hp => exec_processor_held w s al d hp, hsens, halert, hdue, hpre,
    step_none_iff w s a, exec_sensor_room w s,
    fun d rest h => ⟨exec_logger_receive w s d rest h,
      fun hp => exec_processor_receive w s d rest h hp,
      fun al hp hal => exec_processor_alert w s d rest al hp h hal⟩,
    fun al d hp hroom => exec_processor_held_room w s al d hp hroom,
    fun al rest h => exec_alert_receive w s al rest h⟩
  · rw [sendMany_append, hfill]
    show sendMany { uxLength := N, items := xs } [x] = none
    rw [sendMany, xQueueSend_full _ _ (by simp [hN])]
    rfl
  · intro y rest hxs
    subst hxs
    refine ⟨rfl, ?_⟩
    rw [xQueueSend_eq_some]
    refine ⟨?_, rfl⟩
    simp only [List.length_cons] at hN
    show rest.length < N
    omega
  · intro hpos
    have hs : xQueueSend (xQueueCreateStatic N) x = some { uxLength := N, items := [x] } := by
      rw [xQueueSend_eq_some]
      exact ⟨by simpa [xQueueCreateStatic] using hpos, rfl⟩
    rw [hs]
    rfl
  · intro hnone
    simp [SystemState.exec, hnone, Option.getD]

/-- Witness of C23.  For a queue of capacity 2: two sends go through, the third has to
wait, and it goes through after one receive.  In the program: when the sensor task and
the statistics task have taken turns 11 times and the alert task has not run, six
alerts are due, five are in the alert queue and the statistics task waits with the
sixth (17.7 to 28.8 degrees); after the alert task has received one alert, the sixth is
sent. -/
theorem queue_waits_when_full_witness :
    sendMany (xQueueCreateStatic 2) [10, 20] = some { uxLength := 2, items := [10, 20] } ∧
    sendMany (xQueueCreateStatic 2) ([10, 20] ++ [30]) = none ∧
    xQueueSend ({ uxLength := 2, items := [20] } : Queue Nat) 30 =
      some { uxLength := 2, items := [20] ++ [30] } ∧
    (processAlerts ProcessorState.init
        (processorReceived (SystemState.run 32 main_blinky (statsSchedule 11)).2)).length = 6 ∧
    (sentAlerts (SystemState.run 32 main_blinky (statsSchedule 11)).2).length = 5 ∧
    heldAlert (SystemState.run 32 main_blinky (statsSchedule 11)).1 =
      [{ fromTemp := 177, toTemp := 288 }] ∧
    sentAlerts (SystemState.run 32 main_blinky
        (statsSchedule 11 ++ [Action.AlertTask, Action.DataProcessorTask])).2 =
      processAlerts ProcessorState.init
        (processorReceived (SystemState.run 32 main_blinky (statsSchedule 11)).2) := by
  have h := queue_waits_when_full 2 [10, 20] 30 32 (statsSchedule 11) main_blinky
    Action.AlertTask rfl
  have hdue := h.2.2.2.2.2.2.2.2.2.2.2.2.1
  have hheld : heldAlert (SystemState.run 32 main_blinky (statsSchedule 11)).1 =
      [{ fromTemp := 177, toTemp := 288 }] := by decide!
  have hsent : (sentAlerts (SystemState.run 32 main_blinky (statsSchedule 11)).2).length = 5 := by
    decide!
  refine ⟨h.1, h.2.1, (h.2.2.1 10 [20] rfl).2, ?_, hsent, hheld, ?_⟩
  · rw [hdue, List.length_append, hsent, hheld]
    rfl
  · rw [hdue, hheld]
    decide!

end DataLogger
